import Mathlib

/-!
Verification of the session and process-control layer of a development
server for driving an emulated-device app workflow (a TypeScript
repository).  The Lean definitions below are a shallow embedding of the
source: `SessionManager` (session registry), `LogBuffer` (bounded,
monotonically indexed line buffer) and `FlutterProcessManager` (process
supervisor).  JavaScript string primitives are modelled over `List Char`
so that every definition evaluates inside the kernel; external effects
(filesystem, simulator control, process spawning) are modelled by
explicit oracles and effect lists.
-/

/-! ## JavaScript string primitives, modelled over `List Char` -/

/-- `s.startsWith pre` of JavaScript: raw character-prefix comparison. -/
def jsStartsWith (s pre : String) : Bool :=
  pre.data.isPrefixOf s.data

/-- `s.endsWith suf` of JavaScript: raw character-suffix comparison. -/
def jsEndsWith (s suf : String) : Bool :=
  suf.data.reverse.isPrefixOf s.data.reverse

/-- Substring search over character lists: does `pat` occur inside `l`? -/
def listSearch (pat : List Char) : List Char → Bool
  | [] => pat.isEmpty
  | c :: rest => pat.isPrefixOf (c :: rest) || listSearch pat rest

/-- `s.includes sub` of JavaScript. -/
def jsIncludes (s sub : String) : Bool :=
  listSearch sub.data s.data

/-- `s.substring n` / our use of dropping a fixed character count. -/
def jsDrop (s : String) (n : Nat) : String :=
  ⟨s.data.drop n⟩

/-- `s.trim()` of JavaScript (whitespace stripped from both ends). -/
def jsTrim (s : String) : String :=
  ⟨((s.data.dropWhile Char.isWhitespace).reverse.dropWhile Char.isWhitespace).reverse⟩

/-- Split a character list on a separator character, JavaScript
`String.split` style: `split c ""` is `[""]`, separators at the ends
produce empty groups. -/
def splitOnChar (c : Char) (l : List Char) : List (List Char) :=
  l.foldr
    (fun x acc =>
      match acc with
      | [] => [[x]]
      | cur :: rest => if x = c then [] :: cur :: rest else (x :: cur) :: rest)
    [[]]

/-- `data.split('\n')` of the source's output handler. -/
def jsSplitLines (data : String) : List String :=
  (splitOnChar '\n' data.data).map (fun l => ⟨l⟩)

/-- Join character-list segments with a separator character. -/
def joinWithChar (c : Char) : List (List Char) → List Char
  | [] => []
  | [x] => x
  | x :: y :: xs => x ++ c :: joinWithChar c (y :: xs)

/-! ## Node `path` module (posix), as used by the source -/

/-- One step of path normalization: empty and `.` segments are dropped,
`..` pops the previous segment (or is dropped at the root), anything
else is kept. -/
def normSegStep (acc : List (List Char)) (seg : List Char) : List (List Char) :=
  if seg = [] || seg = ['.'] then acc
  else if seg = ['.', '.'] then acc.dropLast
  else acc ++ [seg]

/-- Node's posix `path.resolve(base, p)` for an absolute `base`:
if `p` is absolute it is normalized on its own, otherwise it is joined
to `base` and the result is normalized.  `path.resolve(p)` is
`resolvePath cwd p`. -/
def resolvePath (base p : String) : String :=
  let full : List Char :=
    if jsStartsWith p "/" then p.data else base.data ++ '/' :: p.data
  let segs := (splitOnChar '/' full).foldl normSegStep []
  ⟨'/' :: joinWithChar '/' segs⟩

/-- Node's `path.join(a, b)` for a normalized absolute `a` and a plain
file name `b` (the only use in the source is joining the manifest file
name onto a resolved directory). -/
def joinPath (a b : String) : String :=
  if jsEndsWith a "/" then a ++ b else a ++ "/" ++ b

/-! ## Filesystem oracle (`fs.existsSync` / `fs.statSync`) -/

/-- A snapshot of the filesystem as the source observes it: the current
working directory (used by `path.resolve` on relative inputs) and the
sets of existing directories and regular files, keyed by resolved
absolute path. -/
structure FS where
  cwd : String
  dirs : List String
  files : List String
deriving DecidableEq

/-- `existsSync`. -/
def FS.existsSync (fs : FS) (p : String) : Bool :=
  fs.dirs.contains p || fs.files.contains p

/-- `statSync(p).isDirectory()` (only called after `existsSync p`). -/
def FS.isDirectory (fs : FS) (p : String) : Bool :=
  fs.dirs.contains p

/-! ## LogBuffer (`session/log-buffer.ts`) -/

/-- One buffered line: `{ line, timestamp, index }`.  The wall-clock
timestamp is modelled as a `Nat` supplied by the caller of `append`. -/
structure LogEntry where
  line : String
  timestamp : Nat
  index : Nat
deriving DecidableEq

/-- The `LogBuffer` class state: retained entries (oldest first), the
monotonic `currentIndex` counter and the `maxLines` capacity. -/
structure LogBuffer where
  logs : List LogEntry
  currentIndex : Nat
  maxLines : Nat
deriving DecidableEq

/-- `new LogBuffer(maxLines)`. -/
def LogBuffer.mkNew (maxLines : Nat) : LogBuffer :=
  ⟨[], 0, maxLines⟩

/-- `append(line)`: wrap the line with the next index, push it, and
evict the oldest entry when the capacity is exceeded.  `now` stands for
`new Date()`. -/
def LogBuffer.append (b : LogBuffer) (line : String) (now : Nat) : LogBuffer :=
  let entry : LogEntry := ⟨line, now, b.currentIndex⟩
  let pushed := b.logs ++ [entry]
  let kept := if b.maxLines < pushed.length then pushed.drop 1 else pushed
  ⟨kept, b.currentIndex + 1, b.maxLines⟩

/-- `getLogs(fromIndex?, limit)`: `fromIndex < 0` and `limit <= 0` are
rejected; otherwise entries with index at least `fromIndex` (all of
them when `fromIndex` is `undefined`), truncated to `limit`. -/
def LogBuffer.getLogs (b : LogBuffer) (fromIndex : Option Int) (limit : Int) :
    Except String (List LogEntry) :=
  match fromIndex with
  | some i =>
    if i < 0 then .error "fromIndex must be non-negative"
    else if limit ≤ 0 then .error "limit must be positive"
    else .ok ((b.logs.filter (fun e => decide (i ≤ (e.index : Int)))).take limit.toNat)
  | none =>
    if limit ≤ 0 then .error "limit must be positive"
    else .ok (b.logs.take limit.toNat)

/-- `getNextIndex()`. -/
def LogBuffer.getNextIndex (b : LogBuffer) : Nat :=
  b.currentIndex

/-- `getTotalLines()`. -/
def LogBuffer.getTotalLines (b : LogBuffer) : Nat :=
  b.logs.length

/-- `clear()`: empties the retained entries and resets `currentIndex`
to zero. -/
def LogBuffer.clear (b : LogBuffer) : LogBuffer :=
  ⟨[], 0, b.maxLines⟩

/-- `getRecentLines(count)`: the last `count` raw lines. -/
def LogBuffer.getRecentLines (b : LogBuffer) (count : Nat) : List String :=
  (b.logs.drop (b.logs.length - count)).map LogEntry.line

/-- Append a list of lines in order (all with timestamp 0); the test
harness used to state buffer properties. -/
def LogBuffer.appendAll (b : LogBuffer) (lines : List String) : LogBuffer :=
  lines.foldl (fun acc l => acc.append l 0) b

/-- The reference model of a buffer history: the entries a sequence of
appends produces, indexed consecutively from `i`. -/
def entriesFrom : Nat → List String → List LogEntry
  | _, [] => []
  | i, l :: ls => ⟨l, 0, i⟩ :: entriesFrom (i + 1) ls

/-! ## FlutterProcessManager (`session/flutter-process.ts`) -/

/-- The supervisor status enum. -/
inductive FlutterStatus
  | starting
  | running
  | hotReloading
  | stopped
  | failed
deriving DecidableEq

/-- The `FlutterProcess` record (`pid`, `status`, exit code; the start
and stop wall-clock times are omitted, no claim mentions them). -/
structure FlutterProc where
  pid : Nat
  status : FlutterStatus
  exitCode : Option Int
deriving DecidableEq

/-- A log subscriber: an identifier plus an oracle saying on which
lines the callback throws. -/
structure Subscriber where
  sid : Nat
  throws : String → Bool

/-- The `FlutterProcessManager` state: whether `this.process` (the
spawned-subprocess handle) is attached, the `this.flutterProcess`
record, the log buffer, the subscriber set (as an ordered list) and the
number of scheduled-but-unfired `setTimeout` hot-reload transitions. -/
structure FPM where
  processAttached : Bool
  flutterProcess : Option FlutterProc
  logBuffer : LogBuffer
  logSubscribers : List Subscriber
  pendingReloadTimers : Nat

/-- `new FlutterProcessManager(maxLogLines)`. -/
def FPM.mkNew (maxLogLines : Nat) : FPM :=
  ⟨false, none, LogBuffer.mkNew maxLogLines, [], 0⟩

/-- Options bag of `start`. -/
structure FlutterRunOptions where
  worktreePath : String
  deviceId : String
  target : Option String
  flavor : Option String
  additionalArgs : Option (List String)
deriving DecidableEq

/-- The errors `start` can throw.  The source distinguishes the two
invalid-argument messages ("Invalid --dart-define format" and "Invalid
Flutter argument") only by text; both carry the offending value and are
modelled by `invalidArg`. -/
inductive StartErr
  | alreadyRunning
  | pathEscape (target : String)
  | targetMissing (target : String)
  | invalidEntryType (target : String)
  | invalidFlavor (flavor : String)
  | invalidArg (arg : String)
deriving DecidableEq

/-- The observable side effect of a successful `start`. -/
inductive SpawnEff
  | spawn (cmd : String) (args : List String) (cwd : String)
deriving DecidableEq

/-- Target validation of `start`: resolve the target against the
project path, require the result to start (raw string prefix) with the
resolved project path, to exist, and to end in `.dart`. -/
def checkTarget (fs : FS) (worktreePath : String) : Option String → Except StartErr Unit
  | none => .ok ()
  | some target =>
    let projectRoot := resolvePath fs.cwd worktreePath
    let targetPath := resolvePath projectRoot target
    if !(jsStartsWith targetPath projectRoot) then .error (.pathEscape target)
    else if !(fs.existsSync targetPath) then .error (.targetMissing target)
    else if !(jsEndsWith targetPath ".dart") then .error (.invalidEntryType target)
    else .ok ()

/-- One character of the flavor pattern `[a-zA-Z0-9_-]`. -/
def flavorCharOk (c : Char) : Bool :=
  c.isAlphanum || c = '_' || c = '-'

/-- Flavor validation: the whole string must match `[a-zA-Z0-9_-]+`. -/
def checkFlavor : Option String → Except StartErr Unit
  | none => .ok ()
  | some flavor =>
    if !flavor.data.isEmpty && flavor.data.all flavorCharOk then .ok ()
    else .error (.invalidFlavor flavor)

/-- First character of the `--dart-define` key: `[A-Za-z_]`. -/
def idStartOk (c : Char) : Bool :=
  c.isAlpha || c = '_'

/-- Later characters of the `--dart-define` key: `[A-Za-z0-9_]`. -/
def idCharOk (c : Char) : Bool :=
  c.isAlphanum || c = '_'

/-- The ECMAScript line terminators, which `.` in a regular expression
does not match: `\n`, `\r`, U+2028 and U+2029. -/
def isLineTerminator (c : Char) : Bool :=
  c = '\n' || c = '\r' || c = '\u2028' || c = '\u2029'

/-- Scan after the first key character: identifier characters until an
`=` is found; from the `=` on, the regex demands `.*$` — with no `m`
flag, `$` anchors at the end of the input and `.` excludes line
terminators, so every remaining character must be a
non-line-terminator. -/
def dartDefineTail : List Char → Bool
  | [] => false
  | c :: rest =>
    if c = '=' then rest.all (fun d => !isLineTerminator d)
    else idCharOk c && dartDefineTail rest

/-- The regex `^[A-Za-z_][A-Za-z0-9_]*=.*$` (ECMAScript semantics) on
the part of the argument after `--dart-define=`. -/
def dartDefineBodyOk : List Char → Bool
  | [] => false
  | c :: rest => idStartOk c && dartDefineTail rest

/-- The fixed allow-list `ALLOWED_ARGS` of `start`. -/
def ALLOWED_ARGS : List String :=
  ["--debug", "--release", "--profile", "--no-sound-null-safety",
   "--enable-software-rendering", "--verbose", "-v"]

/-- Validation of one extra argument: allow-listed, or a well-formed
`--dart-define=KEY=VALUE`; anything else is rejected carrying the
offending value. -/
def checkArg (arg : String) : Except StartErr Unit :=
  if ALLOWED_ARGS.contains arg then .ok ()
  else if jsStartsWith arg "--dart-define=" then
    if dartDefineBodyOk (jsDrop arg 14).data then .ok ()
    else .error (.invalidArg arg)
  else .error (.invalidArg arg)

/-- The `for (const arg of options.additionalArgs)` loop. -/
def checkArgs : List String → Except StartErr Unit
  | [] => .ok ()
  | a :: rest =>
    match checkArg a with
    | .ok _ => checkArgs rest
    | .error e => .error e

/-- `additionalArgs` validation (skipped when the bag is absent). -/
def checkAdditionalArgs : Option (List String) → Except StartErr Unit
  | none => .ok ()
  | some args => checkArgs args

/-- The final argument vector
`run -d <deviceId> [-t <target>] [--flavor <flavor>] [...extraArgs]`. -/
def buildArgs (o : FlutterRunOptions) : List String :=
  ["run", "-d", o.deviceId]
    ++ (match o.target with | some t => ["-t", t] | none => [])
    ++ (match o.flavor with | some f => ["--flavor", f] | none => [])
    ++ (match o.additionalArgs with | some a => a | none => [])

/-- `start(options)`: the already-running check, the three validation
phases, then the spawn (with `cwd` the raw worktree path) and the
`starting`/`running` initial status depending on whether a pid was
observed.  Returns the thrown error or the `FlutterProcess` record, the
state afterwards, and the spawn effects performed. -/
def FPM.start (m : FPM) (fs : FS) (o : FlutterRunOptions) (observedPid : Nat) :
    Except StartErr FlutterProc × FPM × List SpawnEff :=
  if m.processAttached then (.error .alreadyRunning, m, [])
  else
    match checkTarget fs o.worktreePath o.target with
    | .error e => (.error e, m, [])
    | .ok _ =>
      match checkFlavor o.flavor with
      | .error e => (.error e, m, [])
      | .ok _ =>
        match checkAdditionalArgs o.additionalArgs with
        | .error e => (.error e, m, [])
        | .ok _ =>
          let fp : FlutterProc :=
            { pid := observedPid,
              status := if observedPid ≠ 0 then .running else .starting,
              exitCode := none }
          (.ok fp,
           { m with processAttached := true, flutterProcess := some fp },
           [.spawn "flutter" (buildArgs o) o.worktreePath])

/-- The reload-marker test of `detectStatusChanges`:
`line.includes('Hot reload') || line.includes('Reloaded')`. -/
def isReloadMarker (line : String) : Bool :=
  jsIncludes line "Hot reload" || jsIncludes line "Reloaded"

/-- `detectStatusChanges(line)`: on a reload marker, set the status to
`hot-reloading` and schedule a `setTimeout` transition to `running`. -/
def FPM.detectStatusChanges (m : FPM) (line : String) : FPM :=
  match m.flutterProcess with
  | none => m
  | some fp =>
    if isReloadMarker line then
      { m with flutterProcess := some { fp with status := .hotReloading },
               pendingReloadTimers := m.pendingReloadTimers + 1 }
    else m

/-- The one-subscriber-at-a-time fan-out loop: every subscriber is
invoked (first component, the delivery log) and a throwing callback is
caught and logged (second component) instead of stopping the loop. -/
def notifyAll : List Subscriber → String → List (Nat × String) × List (Nat × String)
  | [], _ => ([], [])
  | s :: rest, line =>
    let caught := if s.throws line then [(s.sid, line)] else []
    let tail := notifyAll rest line
    ((s.sid, line) :: tail.1, caught ++ tail.2)

/-- Processing of one split-off line in `handleOutput`: whitespace-only
lines are skipped; otherwise append to the buffer, fan out to the
subscribers, then run marker detection. -/
def FPM.processLine (m : FPM) (line : String) :
    FPM × List (Nat × String) × List (Nat × String) :=
  if (jsTrim line).data.isEmpty then (m, [], [])
  else
    let m1 := { m with logBuffer := m.logBuffer.append line 0 }
    let fan := notifyAll m.logSubscribers line
    (m1.detectStatusChanges line, fan.1, fan.2)

/-- The `for (const line of lines)` loop of `handleOutput`. -/
def FPM.processLines (m : FPM) : List String → FPM × List (Nat × String) × List (Nat × String)
  | [] => (m, [], [])
  | l :: ls =>
    let first := m.processLine l
    let rest := first.1.processLines ls
    (rest.1, first.2.1 ++ rest.2.1, first.2.2 ++ rest.2.2)

/-- `handleOutput(data)`: split the chunk on newlines and process each
line; also returns the delivery log and the caught-subscriber-error
log. -/
def FPM.handleOutput (m : FPM) (data : String) :
    FPM × List (Nat × String) × List (Nat × String) :=
  m.processLines (jsSplitLines data)

/-- `handleExit(code, signal)`: `stopped` exactly on exit code 0, else
`failed`; the exit code is recorded and the subprocess handle is
released. -/
def FPM.handleExit (m : FPM) (code : Option Int) (_signal : Option String) : FPM :=
  let m1 :=
    match m.flutterProcess with
    | none => m
    | some fp =>
      let fp1 : FlutterProc :=
        { fp with status := if code = some 0 then .stopped else .failed, exitCode := code }
      { m with flutterProcess := some fp1 }
  { m1 with processAttached := false }

/-- One scheduled `setTimeout` callback of `detectStatusChanges`
firing: the callback guards only on `this.flutterProcess` being present
and then unconditionally sets the status to `running`. -/
def FPM.fireReloadTimer (m : FPM) : FPM :=
  if m.pendingReloadTimers = 0 then m
  else
    let m1 := { m with pendingReloadTimers := m.pendingReloadTimers - 1 }
    match m1.flutterProcess with
    | none => m1
    | some fp => { m1 with flutterProcess := some { fp with status := .running } }

/-- `stop()` / `hotReload()` / `hotRestart()` only write a keystroke to
the subprocess stdin and change none of the supervisor state; their
result is whether a handle was attached. -/
def FPM.stop (m : FPM) : Bool × FPM :=
  (m.processAttached, m)

/-- The events the supervisor reacts to. -/
inductive Ev
  | startEv (o : FlutterRunOptions) (observedPid : Nat)
  | outputEv (data : String)
  | exitEv (code : Option Int) (signal : Option String)
  | timerEv
  | stopEv

/-- One event-dispatch step of the supervisor. -/
def FPM.step (m : FPM) (fs : FS) : Ev → FPM
  | .startEv o pid => (m.start fs o pid).2.1
  | .outputEv data => (m.handleOutput data).1
  | .exitEv code signal => m.handleExit code signal
  | .timerEv => m.fireReloadTimer
  | .stopEv => (m.stop).2

/-- Run a sequence of events. -/
def FPM.runEvents (m : FPM) (fs : FS) : List Ev → FPM
  | [] => m
  | e :: es => (m.step fs e).runEvents fs es

/-! ## SessionManager (`session/manager.ts`) -/

/-- A stored session.  `hasFpm` records whether a
`flutterProcessManager` is attached (only its presence matters to the
teardown path); `createdAt` stands for the creation `Date`. -/
structure Session where
  id : String
  worktreePath : String
  simulatorUdid : String
  deviceType : String
  createdAt : Nat
  hasFpm : Bool
deriving DecidableEq

/-- The `SessionInfo` record returned to callers (`createdAt` kept as
the numeric timestamp rather than its ISO rendering). -/
structure SessionInfo where
  id : String
  worktreePath : String
  simulatorUdid : String
  deviceType : String
  createdAt : Nat
deriving DecidableEq

/-- `createSession` parameters; `deviceType` is optional with source
default `iPhone 16 Pro`. -/
structure CreateSessionParams where
  worktreePath : String
  deviceType : Option String
deriving DecidableEq

/-- The errors `createSession` can throw.  `simulatorFailure` is an
upstream failure of simulator creation or boot propagated as-is,
not a validation error. -/
inductive CreateErr
  | accessDenied (resolvedPath : String)
  | dirMissing (path : String)
  | notADirectory (path : String)
  | invalidProject (resolvedPath : String)
  | simulatorFailure (msg : String)
deriving DecidableEq

/-- Is the error one of the four synchronous validation errors? -/
def CreateErr.isValidation : CreateErr → Bool
  | .accessDenied _ => true
  | .dirMissing _ => true
  | .notADirectory _ => true
  | .invalidProject _ => true
  | .simulatorFailure _ => false

/-- Observable side effects on the simulator-control interface and the
attached process manager. -/
inductive SimEff
  | createSim (deviceType : String)
  | bootSim (udid : String)
  | shutdownSim (udid : String)
  | deleteSim (udid : String)
  | fpmCleanup (sessionId : String)
deriving DecidableEq

/-- Oracles for the external simulator-control calls and for the
attached process manager's `cleanup` (keyed by session id): each call
either succeeds or throws with a message. -/
structure SimWorld where
  createResult : String → Except String String
  bootResult : String → Except String Unit
  shutdownResult : String → Except String Unit
  deleteResult : String → Except String Unit
  fpmCleanupResult : String → Except String Unit

/-- The registry state: the configured allowed path prefix
(`allowedPathPrefix` in the source) and the session map in insertion
order. -/
structure SMState where
  allowedPathRoot : String
  sessions : List (String × Session)
deriving DecidableEq

/-- `sessionState.get`. -/
def getKey (l : List (String × Session)) (k : String) : Option Session :=
  (l.find? (fun kv => kv.1 = k)).map (fun kv => kv.2)

/-- `sessionState.set` (JavaScript `Map` semantics: replace an existing
key, append a new one). -/
def setKey (l : List (String × Session)) (k : String) (v : Session) :
    List (String × Session) :=
  if l.any (fun kv => kv.1 = k) then
    l.map (fun kv => if kv.1 = k then (k, v) else kv)
  else l ++ [(k, v)]

/-- `sessionState.delete`. -/
def eraseKey (l : List (String × Session)) (k : String) : List (String × Session) :=
  l.filter (fun kv => kv.1 ≠ k)

/-- The four sequential validation throws at the top of
`createSession`, in source order. -/
def SMState.validateCreate (st : SMState) (fs : FS) (worktreePath : String) :
    Except CreateErr Unit :=
  let resolvedPath := resolvePath fs.cwd worktreePath
  if !(jsStartsWith resolvedPath st.allowedPathRoot) then
    .error (.accessDenied resolvedPath)
  else if !(fs.existsSync resolvedPath) then
    .error (.dirMissing worktreePath)
  else if !(fs.isDirectory resolvedPath) then
    .error (.notADirectory worktreePath)
  else if !(fs.existsSync (joinPath resolvedPath "pubspec.yaml")) then
    .error (.invalidProject resolvedPath)
  else .ok ()

/-- `createSession(params)`: resolve the worktree path, run the four
validation checks in source order, then create and boot a simulator and
record the session.  `newId` stands for the generated uuid and `now`
for the creation time.  Returns the result, the state afterwards, and
the simulator effects performed.  Note that the recorded session and
the returned info carry the original `worktreePath` argument, not the
resolved path (the resolved path is used only for validation). -/
def SMState.createSession (st : SMState) (fs : FS) (world : SimWorld)
    (newId : String) (now : Nat) (params : CreateSessionParams) :
    Except CreateErr SessionInfo × SMState × List SimEff :=
  let worktreePath := params.worktreePath
  let deviceType := params.deviceType.getD "iPhone 16 Pro"
  match st.validateCreate fs worktreePath with
  | .error e => (.error e, st, [])
  | .ok _ =>
    match world.createResult deviceType with
    | .error msg => (.error (.simulatorFailure msg), st, [.createSim deviceType])
    | .ok udid =>
      match world.bootResult udid with
      | .error msg =>
        (.error (.simulatorFailure msg), st, [.createSim deviceType, .bootSim udid])
      | .ok _ =>
        let session : Session :=
          { id := newId, worktreePath := worktreePath, simulatorUdid := udid,
            deviceType := deviceType, createdAt := now, hasFpm := false }
        (.ok { id := session.id, worktreePath := session.worktreePath,
               simulatorUdid := session.simulatorUdid,
               deviceType := session.deviceType, createdAt := session.createdAt },
         { st with sessions := setKey st.sessions newId session },
         [.createSim deviceType, .bootSim udid])

/-- The error `endSession` can throw. -/
inductive EndErr
  | sessionMissing (sessionId : String)
deriving DecidableEq

/-- `endSession(sessionId)`: not-found for an unknown id; otherwise the
attached process manager's cleanup, the simulator shutdown and the
simulator deletion are each attempted with their failures caught and
logged (fourth component), and the session is removed from the registry
unconditionally. -/
def SMState.endSession (st : SMState) (world : SimWorld) (sessionId : String) :
    Except EndErr Unit × SMState × List SimEff × List String :=
  match getKey st.sessions sessionId with
  | none => (.error (.sessionMissing sessionId), st, [], [])
  | some session =>
    let fpmEffs : List SimEff :=
      if session.hasFpm then [.fpmCleanup sessionId] else []
    let fpmWarns : List String :=
      if session.hasFpm then
        match world.fpmCleanupResult sessionId with
        | .ok _ => []
        | .error e => ["Failed to cleanup Flutter process: " ++ e]
      else []
    let shutWarns : List String :=
      match world.shutdownResult session.simulatorUdid with
      | .ok _ => []
      | .error e => ["Failed to shutdown simulator: " ++ e]
    let delWarns : List String :=
      match world.deleteResult session.simulatorUdid with
      | .ok _ => []
      | .error e => ["Failed to delete simulator: " ++ e]
    (.ok (),
     { st with sessions := eraseKey st.sessions sessionId },
     fpmEffs ++ [.shutdownSim session.simulatorUdid, .deleteSim session.simulatorUdid],
     fpmWarns ++ shutWarns ++ delWarns)

/-- The loop body of `cleanup()`: end each snapshotted session in turn,
catching (and logging) any per-session error so the loop continues. -/
def SMState.cleanupLoop (st : SMState) (world : SimWorld) :
    List String → SMState × List SimEff × List String
  | [] => (st, [], [])
  | sessionId :: rest =>
    let r := st.endSession world sessionId
    let errLogs : List String :=
      match r.1 with
      | .ok _ => []
      | .error _ => ["Failed to end session during cleanup: " ++ sessionId]
    let tail := r.2.1.cleanupLoop world rest
    (tail.1, r.2.2.1 ++ tail.2.1, r.2.2.2 ++ errLogs ++ tail.2.2)

/-- `cleanup()`: snapshot the registered sessions and end every one. -/
def SMState.cleanup (st : SMState) (world : SimWorld) :
    SMState × List SimEff × List String :=
  st.cleanupLoop world (st.sessions.map (fun kv => kv.1))

/-! ## Spec-side predicates and concrete fixtures -/

/-- The specification's description of an acceptable extra
`--dart-define` argument: literally `--dart-define=KEY=VALUE` where
`KEY` matches `[A-Za-z_][A-Za-z0-9_]*` (`VALUE` unconstrained).
Stated from the spec's words, to be compared with the source's
`checkArg`. -/
def specDartDefine (a : String) : Prop :=
  ∃ key value : List Char,
    a.data = "--dart-define=".data ++ key ++ '=' :: value ∧
    (match key with
     | [] => False
     | c :: rest => idStartOk c = true ∧ rest.all idCharOk = true)

/-- What the source's regex actually accepts: `--dart-define=KEY=VALUE`
where `KEY` matches `[A-Za-z_][A-Za-z0-9_]*` and, because of `.*$`
under ECMAScript semantics, `VALUE` contains no line terminator. -/
def specDartDefineStrict (a : String) : Prop :=
  ∃ key value : List Char,
    a.data = "--dart-define=".data ++ key ++ '=' :: value ∧
    (match key with
     | [] => False
     | c :: rest => idStartOk c = true ∧ rest.all idCharOk = true) ∧
    value.all (fun d => !isLineTerminator d) = true

/-- Example simulator world: shutdown fails for simulator `U1`,
everything else succeeds. -/
def exWorld : SimWorld :=
  ⟨fun _ => .ok "TEST-UDID-123", fun _ => .ok (),
   fun udid => if udid = "U1" then .error "shutdown failed" else .ok (),
   fun _ => .ok (), fun _ => .ok ()⟩

/-- Example session with an attached process manager. -/
def exSession1 : Session :=
  ⟨"s1", "/Users/alice/proj1", "U1", "iPhone 16 Pro", 0, true⟩

/-- Second example session. -/
def exSession2 : Session :=
  ⟨"s2", "/Users/alice/proj2", "U2", "iPhone 16 Pro", 0, false⟩

/-- Example registry holding the two sessions. -/
def exState : SMState :=
  ⟨"/Users/", [("s1", exSession1), ("s2", exSession2)]⟩

/-- Example supervisor state with an attached subprocess handle. -/
def exFpm : FPM :=
  ⟨true, some ⟨42, .running, none⟩, LogBuffer.mkNew 5, [], 0⟩

/-! ## LogBuffer lemmas -/

theorem entriesFrom_length (i : Nat) (xs : List String) :
    (entriesFrom i xs).length = xs.length := by
  induction xs generalizing i with
  | nil => rfl
  | cons x xs ih => simp [entriesFrom, ih]

theorem entriesFrom_append (i : Nat) (xs ys : List String) :
    entriesFrom i (xs ++ ys) = entriesFrom i xs ++ entriesFrom (i + xs.length) ys := by
  induction xs generalizing i with
  | nil => simp [entriesFrom]
  | cons x xs ih =>
    have h : i + 1 + xs.length = i + (xs.length + 1) := by omega
    simp [entriesFrom, ih, h]

theorem entriesFrom_drop (i k : Nat) (xs : List String) :
    (entriesFrom i xs).drop k = entriesFrom (i + k) (xs.drop k) := by
  induction xs generalizing i k with
  | nil => simp [entriesFrom]
  | cons x xs ih =>
    cases k with
    | zero => simp [entriesFrom]
    | succ k =>
      have h : i + 1 + k = i + (k + 1) := by omega
      simp [entriesFrom, ih (i + 1) k, h]

theorem entriesFrom_map_index (i : Nat) (xs : List String) :
    (entriesFrom i xs).map LogEntry.index = List.range' i xs.length := by
  induction xs generalizing i with
  | nil => rfl
  | cons x xs ih => simp [entriesFrom, List.range'_succ, ih]

theorem LogBuffer.append_def (b : LogBuffer) (line : String) (now : Nat) :
    b.append line now =
      ⟨if b.maxLines < (b.logs ++ [(⟨line, now, b.currentIndex⟩ : LogEntry)]).length
         then (b.logs ++ [(⟨line, now, b.currentIndex⟩ : LogEntry)]).drop 1
         else b.logs ++ [(⟨line, now, b.currentIndex⟩ : LogEntry)],
       b.currentIndex + 1, b.maxLines⟩ := rfl

theorem appendAll_cons (b : LogBuffer) (l : String) (ls : List String) :
    b.appendAll (l :: ls) = (b.append l 0).appendAll ls := rfl

theorem appendAll_currentIndex (b : LogBuffer) (L : List String) :
    (b.appendAll L).currentIndex = b.currentIndex + L.length := by
  induction L generalizing b with
  | nil => rfl
  | cons l ls ih =>
    rw [appendAll_cons, ih, LogBuffer.append_def]
    simp
    omega

theorem append_model (C : Nat) (hC : 0 < C) (M : List String) (x : String) :
    (LogBuffer.mk ((entriesFrom 0 M).drop (M.length - C)) M.length C).append x 0
      = ⟨(entriesFrom 0 (M ++ [x])).drop (M.length + 1 - C), M.length + 1, C⟩ := by
  have hlen : (entriesFrom 0 M).length = M.length := entriesFrom_length 0 M
  have hsplit : entriesFrom 0 (M ++ [x]) = entriesFrom 0 M ++ [⟨x, 0, M.length⟩] := by
    simp [entriesFrom_append, entriesFrom]
  have hdlen : ((entriesFrom 0 M).drop (M.length - C)).length
      = M.length - (M.length - C) := by
    simp [hlen]
  rw [LogBuffer.append_def]
  simp only [LogBuffer.mk.injEq]
  refine ⟨?_, trivial, trivial⟩
  by_cases hMC : C ≤ M.length
  case pos =>
    have hcnd : C < (((entriesFrom 0 M).drop (M.length - C))
        ++ [(⟨x, 0, M.length⟩ : LogEntry)]).length := by
      rw [List.length_append, hdlen]
      simp
      omega
    have e1 : M.length - C + 1 = M.length + 1 - C := by omega
    have e2 : (1 : Nat) - ((entriesFrom 0 M).drop (M.length - C)).length = 0 := by
      rw [hdlen]; omega
    have e3 : M.length + 1 - C - (entriesFrom 0 M).length = 0 := by
      rw [hlen]; omega
    rw [if_pos hcnd, hsplit, List.drop_append_eq_append_drop,
      List.drop_append_eq_append_drop, List.drop_drop, e1, e2, e3]
  case neg =>
    have h0 : M.length - C = 0 := by omega
    have h1 : M.length + 1 - C = 0 := by omega
    have hcnd : ¬ C < (((entriesFrom 0 M).drop (M.length - C))
        ++ [(⟨x, 0, M.length⟩ : LogEntry)]).length := by
      rw [List.length_append, hdlen]
      simp
      omega
    rw [if_neg hcnd, hsplit, h1, List.drop_zero, h0, List.drop_zero]

theorem appendAll_model_aux (C : Nat) (hC : 0 < C) (L : List String) :
    ∀ M : List String,
      (LogBuffer.mk ((entriesFrom 0 M).drop (M.length - C)) M.length C).appendAll L
        = ⟨(entriesFrom 0 (M ++ L)).drop ((M ++ L).length - C), (M ++ L).length, C⟩ := by
  induction L with
  | nil => intro M; simp [LogBuffer.appendAll]
  | cons l ls ih =>
    intro M
    have hstep := append_model C hC M l
    simp only [LogBuffer.appendAll, List.foldl_cons] at *
    rw [hstep]
    have := ih (M ++ [l])
    simp only [LogBuffer.appendAll] at this
    simpa [List.append_assoc] using this

theorem appendAll_model (C : Nat) (hC : 0 < C) (L : List String) :
    (LogBuffer.mkNew C).appendAll L
      = ⟨(entriesFrom 0 L).drop (L.length - C), L.length, C⟩ := by
  have := appendAll_model_aux C hC L []
  simpa [LogBuffer.mkNew, entriesFrom] using this

theorem entriesFrom_filter_all (k i : Nat) (hk : k ≤ i) (M : List String) :
    (entriesFrom i M).filter (fun e => decide ((k : Int) ≤ (e.index : Int)))
      = entriesFrom i M := by
  induction M generalizing i with
  | nil => rfl
  | cons l M ih =>
    simp only [entriesFrom, List.filter_cons]
    have hki : decide ((k : Int) ≤ (((⟨l, 0, i⟩ : LogEntry)).index : Int)) = true := by
      simp
      omega
    rw [hki]
    simp only [if_pos]
    rw [ih (i + 1) (by omega)]

theorem entriesFrom_filter_drop (k i : Nat) (M : List String) :
    (entriesFrom i M).filter (fun e => decide ((k : Int) ≤ (e.index : Int)))
      = (entriesFrom i M).drop (k - i) := by
  induction M generalizing i with
  | nil => simp [entriesFrom]
  | cons l M ih =>
    by_cases hk : k ≤ i
    case pos =>
      rw [entriesFrom_filter_all k i hk]
      have h0 : k - i = 0 := by omega
      rw [h0, List.drop_zero]
    case neg =>
      simp only [entriesFrom, List.filter_cons]
      have hne : decide ((k : Int) ≤ (((⟨l, 0, i⟩ : LogEntry)).index : Int)) = false := by
        simp
        omega
      rw [hne]
      simp only [Bool.false_eq_true, if_false]
      rw [ih (i + 1)]
      have hdrop : k - i = (k - (i + 1)) + 1 := by omega
      rw [hdrop, List.drop_succ_cons]

theorem getLogs_valid (b : LogBuffer) (k L : Nat) (hL : 0 < L) :
    b.getLogs (some (k : Int)) (L : Int)
      = .ok ((b.logs.filter (fun e => decide ((k : Int) ≤ (e.index : Int)))).take L) := by
  have h1 : ¬ ((k : Int) < 0) := by omega
  have h2 : ¬ ((L : Int) ≤ 0) := by omega
  have h3 : (L : Int).toNat = L := by omega
  simp only [LogBuffer.getLogs, if_neg h1, if_neg h2, h3]

theorem append_getLast (b : LogBuffer) (x : String) (t : Nat) (hcap : 0 < b.maxLines) :
    ((b.append x t)).logs.getLast? = some ⟨x, t, b.currentIndex⟩ := by
  rw [LogBuffer.append_def]
  by_cases h : b.maxLines < (b.logs ++ [(⟨x, t, b.currentIndex⟩ : LogEntry)]).length
  case pos =>
    rw [if_pos h]
    cases hl : b.logs with
    | nil =>
      rw [hl] at h
      simp at h
      omega
    | cons a rest =>
      simp [List.getLast?_concat]
  case neg =>
    rw [if_neg h]
    simp [List.getLast?_concat]

theorem appendAll_maxLines (b : LogBuffer) (L : List String) :
    (b.appendAll L).maxLines = b.maxLines := by
  induction L generalizing b with
  | nil => rfl
  | cons l ls ih =>
    rw [appendAll_cons, ih, LogBuffer.append_def]

/-- C8: for a `LogBuffer` of capacity `C`, after appending `N > C`
lines the total is `C`, the next index is `N`, the retained entries
carry the consecutive indices `N-C .. N-1`, `getLogs(k, L)` returns
exactly the retained entries with index at least `k`, oldest first,
truncated to the first `L`, and `getLogs` fails with the
invalid-argument errors whenever `fromIndex` is negative or `limit` is
non-positive. -/
theorem c8_buffer_eviction_and_pagination (C N : Nat) (hC : 0 < C) (hN : C < N)
    (lines : List String) (hlen : lines.length = N)
    (b : LogBuffer) (hb : b = (LogBuffer.mkNew C).appendAll lines)
    (k L : Nat) (hL : 0 < L) :
    b.getTotalLines = C ∧
    b.getNextIndex = N ∧
    b.logs.map LogEntry.index = List.range' (N - C) C ∧
    b.getLogs (some (k : Int)) (L : Int)
      = .ok (((entriesFrom 0 lines).drop (max (N - C) k)).take L) ∧
    (∀ i : Int, i < 0 → ∀ lim : Int,
      b.getLogs (some i) lim = .error "fromIndex must be non-negative") ∧
    (∀ lim : Int, lim ≤ 0 →
      b.getLogs (some (k : Int)) lim = .error "limit must be positive") := by
  subst hlen
  subst hb
  rw [appendAll_model C hC lines]
  have hdrop0 : ∀ j : Nat, (entriesFrom 0 lines).drop j = entriesFrom j (lines.drop j) := by
    intro j
    rw [entriesFrom_drop]
    simp
  refine ⟨?_, rfl, ?_, ?_, ?_, ?_⟩
  · show ((entriesFrom 0 lines).drop (lines.length - C)).length = C
    rw [List.length_drop, entriesFrom_length]
    omega
  · show ((entriesFrom 0 lines).drop (lines.length - C)).map LogEntry.index = _
    rw [hdrop0, entriesFrom_map_index, List.length_drop]
    congr 1
    omega
  · rw [getLogs_valid _ k L hL]
    show Except.ok ((((entriesFrom 0 lines).drop (lines.length - C)).filter _).take L) = _
    rw [hdrop0, entriesFrom_filter_drop, ← hdrop0, List.drop_drop]
    have hidx : lines.length - C + (k - (lines.length - C)) = max (lines.length - C) k := by
      omega
    rw [hidx]
  · intro i hi lim
    simp only [LogBuffer.getLogs, if_pos hi]
  · intro lim hlim
    have h1 : ¬ ((k : Int) < 0) := by omega
    simp only [LogBuffer.getLogs, if_neg h1, if_pos hlim]

theorem c8_witness :
    ((LogBuffer.mkNew 2).appendAll ["a", "b", "c"]).getTotalLines = 2 ∧
    ((LogBuffer.mkNew 2).appendAll ["a", "b", "c"]).getNextIndex = 3 ∧
    ((LogBuffer.mkNew 2).appendAll ["a", "b", "c"]).logs.map LogEntry.index
      = List.range' (3 - 2) 2 ∧
    ((LogBuffer.mkNew 2).appendAll ["a", "b", "c"]).getLogs (some ((1 : Nat) : Int)) ((5 : Nat) : Int)
      = .ok (((entriesFrom 0 ["a", "b", "c"]).drop (max (3 - 2) 1)).take 5) ∧
    (∀ i : Int, i < 0 → ∀ lim : Int,
      ((LogBuffer.mkNew 2).appendAll ["a", "b", "c"]).getLogs (some i) lim
        = .error "fromIndex must be non-negative") ∧
    (∀ lim : Int, lim ≤ 0 →
      ((LogBuffer.mkNew 2).appendAll ["a", "b", "c"]).getLogs (some ((1 : Nat) : Int)) lim
        = .error "limit must be positive") :=
  c8_buffer_eviction_and_pagination 2 3 (by decide) (by decide) ["a", "b", "c"] rfl
    ((LogBuffer.mkNew 2).appendAll ["a", "b", "c"]) rfl 1 5 (by decide)

/-- C6 counterexample: the claim extends index monotonicity across
`Clear`, but `clear()` resets the counter to zero, so the index 0
assigned to the first append before the clear is assigned again to the
first append after it. -/
theorem c6_counterexample :
    ((LogBuffer.mkNew 5).append "a" 0).logs.map LogEntry.index = [0] ∧
    ((((LogBuffer.mkNew 5).append "a" 0).clear).append "b" 1).logs.map LogEntry.index = [0] ∧
    (((LogBuffer.mkNew 5).append "a" 0).clear).getNextIndex = 0 :=
  ⟨rfl, rfl, rfl⟩

/-- C6 (amended): within a clear-free run the counter is never reset or
reused — after `k` appends the counter is exactly `k` and the next
append receives index `k`, strictly above every index assigned before —
while `clear()` (as issued by the supervisor's cleanup) resets the
counter to 0 so later appends reuse indices from 0. -/
theorem c6_amended_monotonic_indices (C : Nat) (hC : 0 < C) (L : List String)
    (k : Nat) (hk : k ≤ L.length) (x : String) :
    ((LogBuffer.mkNew C).appendAll (L.take k)).getNextIndex = k ∧
    (((LogBuffer.mkNew C).appendAll (L.take k)).append x 0).logs.getLast?
      = some ⟨x, 0, k⟩ ∧
    (((LogBuffer.mkNew C).appendAll L).clear).getNextIndex = 0 ∧
    ((((LogBuffer.mkNew C).appendAll L).clear).append x 0).logs = [⟨x, 0, 0⟩] := by
  have hcnt : ((LogBuffer.mkNew C).appendAll (L.take k)).currentIndex = k := by
    rw [appendAll_currentIndex]
    simp [LogBuffer.mkNew]
    omega
  refine ⟨hcnt, ?_, rfl, ?_⟩
  · have hmax : ((LogBuffer.mkNew C).appendAll (L.take k)).maxLines = C := by
      rw [appendAll_maxLines]
      rfl
    have := append_getLast ((LogBuffer.mkNew C).appendAll (L.take k)) x 0 (by rw [hmax]; exact hC)
    rw [hcnt] at this
    exact this
  · have hclear : (((LogBuffer.mkNew C).appendAll L).clear) = ⟨[], 0, C⟩ := by
      show (⟨[], 0, ((LogBuffer.mkNew C).appendAll L).maxLines⟩ : LogBuffer) = ⟨[], 0, C⟩
      rw [appendAll_maxLines]
      rfl
    rw [hclear, LogBuffer.append_def]
    have hcond : ¬ (C < (([] : List LogEntry) ++ [(⟨x, 0, 0⟩ : LogEntry)]).length) := by
      simp
      omega
    simp only [if_neg hcond]
    simp

theorem c6_witness :
    ((LogBuffer.mkNew 2).appendAll (["a", "b", "c"].take 3)).getNextIndex = 3 ∧
    (((LogBuffer.mkNew 2).appendAll (["a", "b", "c"].take 3)).append "d" 0).logs.getLast?
      = some ⟨"d", 0, 3⟩ ∧
    (((LogBuffer.mkNew 2).appendAll ["a", "b", "c"]).clear).getNextIndex = 0 ∧
    ((((LogBuffer.mkNew 2).appendAll ["a", "b", "c"]).clear).append "d" 0).logs
      = [⟨"d", 0, 0⟩] :=
  c6_amended_monotonic_indices 2 (by decide) ["a", "b", "c"] 3 (by decide) "d"

/-! ## Session-registry lemmas -/

theorem setKey_mem (l : List (String × Session)) (k : String) (v : Session) :
    (k, v) ∈ setKey l k v := by
  unfold setKey
  split_ifs with h
  · rw [List.any_eq_true] at h
    obtain ⟨kv, hmem, hk⟩ := h
    rw [List.mem_map]
    refine ⟨kv, hmem, ?_⟩
    simp only [decide_eq_true_eq] at hk
    simp [hk]
  · simp

theorem getKey_eraseKey_self (l : List (String × Session)) (k : String) :
    getKey (eraseKey l k) k = none := by
  induction l with
  | nil => rfl
  | cons kv l ih =>
    by_cases hk : kv.1 = k
    · simp [eraseKey, getKey, hk]
    · simp [eraseKey, getKey, hk]

theorem getKey_eraseKey_other (l : List (String × Session)) (k other : String)
    (hne : other ≠ k) :
    getKey (eraseKey l k) other = getKey l other := by
  induction l with
  | nil => rfl
  | cons kv l ih =>
    by_cases hk : kv.1 = k
    case pos =>
      have h2 : ¬ (kv.1 = other) := by
        rw [hk]
        exact fun h => hne h.symm
      have e1 : eraseKey (kv :: l) k = eraseKey l k := by
        simp [eraseKey, hk]
      have e2 : getKey (kv :: l) other = getKey l other := by
        simp [getKey, h2]
      rw [e1, e2, ih]
    case neg =>
      have e1 : eraseKey (kv :: l) k = kv :: eraseKey l k := by
        simp [eraseKey, hk]
      rw [e1]
      by_cases h2 : kv.1 = other
      · simp [getKey, h2]
      · have e2 : getKey (kv :: eraseKey l k) other = getKey (eraseKey l k) other := by
          simp [getKey, h2]
        have e3 : getKey (kv :: l) other = getKey l other := by
          simp [getKey, h2]
        rw [e2, e3, ih]

theorem validateCreate_accessDenied_iff (st : SMState) (fs : FS) (p : String) :
    st.validateCreate fs p = .error (.accessDenied (resolvePath fs.cwd p))
      ↔ jsStartsWith (resolvePath fs.cwd p) st.allowedPathRoot = false := by
  simp only [SMState.validateCreate]
  split_ifs with h1 h2 h3 h4 <;> simp_all

/-- C1: `createSession` throws access-denied exactly when the resolved
worktree path does not start, by raw string-prefix comparison, with the
configured allowed prefix (so a sibling such as `/Users/alice-evil`
passes the access check of prefix `/Users/alice`), and every validation
failure leaves the registry unchanged and performs no simulator
creation or boot. -/
theorem c1_access_denied_iff_and_validation_pure
    (fs : FS) (world : SimWorld) (st : SMState) (newId : String) (now : Nat)
    (params : CreateSessionParams)
    (r : Except CreateErr SessionInfo × SMState × List SimEff)
    (hr : r = st.createSession fs world newId now params) :
    (r.1 = .error (.accessDenied (resolvePath fs.cwd params.worktreePath))
        ↔ jsStartsWith (resolvePath fs.cwd params.worktreePath) st.allowedPathRoot = false) ∧
    (∀ e, r.1 = .error e → e.isValidation = true → r.2.1 = st ∧ r.2.2 = []) := by
  subst hr
  rw [← validateCreate_accessDenied_iff st fs params.worktreePath]
  cases hv : st.validateCreate fs params.worktreePath with
  | error e0 =>
    constructor
    · simp [SMState.createSession, hv]
    · intro e he hv2
      refine ⟨?_, ?_⟩ <;> simp [SMState.createSession, hv]
  | ok u =>
    constructor
    · simp only [SMState.createSession, hv]
      split
      · simp
      · split <;> simp
    · simp only [SMState.createSession, hv]
      split
      · intro e he hvv
        simp at he
        subst he
        simp [CreateErr.isValidation] at hvv
      · split
        · intro e he hvv
          simp at he
          subst he
          simp [CreateErr.isValidation] at hvv
        · intro e he hvv
          simp at he

theorem c1_witness :
    (((SMState.mk "/Users/alice" []).createSession ⟨"/", [], []⟩
          ⟨fun _ => .ok "TEST-UDID-123", fun _ => .ok (), fun _ => .ok (), fun _ => .ok (),
           fun _ => .ok ()⟩ "sid-1" 0 ⟨"/Users/alice-evil", none⟩).1
        = .error (.accessDenied (resolvePath "/" "/Users/alice-evil")) ↔
      jsStartsWith (resolvePath "/" "/Users/alice-evil") "/Users/alice" = false) ∧
    (∀ e, ((SMState.mk "/Users/alice" []).createSession ⟨"/", [], []⟩
          ⟨fun _ => .ok "TEST-UDID-123", fun _ => .ok (), fun _ => .ok (), fun _ => .ok (),
           fun _ => .ok ()⟩ "sid-1" 0 ⟨"/Users/alice-evil", none⟩).1 = .error e →
      e.isValidation = true →
      ((SMState.mk "/Users/alice" []).createSession ⟨"/", [], []⟩
          ⟨fun _ => .ok "TEST-UDID-123", fun _ => .ok (), fun _ => .ok (), fun _ => .ok (),
           fun _ => .ok ()⟩ "sid-1" 0 ⟨"/Users/alice-evil", none⟩).2.1
        = SMState.mk "/Users/alice" [] ∧
      ((SMState.mk "/Users/alice" []).createSession ⟨"/", [], []⟩
          ⟨fun _ => .ok "TEST-UDID-123", fun _ => .ok (), fun _ => .ok (), fun _ => .ok (),
           fun _ => .ok ()⟩ "sid-1" 0 ⟨"/Users/alice-evil", none⟩).2.2 = []) :=
  c1_access_denied_iff_and_validation_pure ⟨"/", [], []⟩
    ⟨fun _ => .ok "TEST-UDID-123", fun _ => .ok (), fun _ => .ok (), fun _ => .ok (),
     fun _ => .ok ()⟩ (SMState.mk "/Users/alice" []) "sid-1" 0 ⟨"/Users/alice-evil", none⟩
    _ rfl

/-- C5 counterexample: a valid but non-normalized absolute input
(`/Users/a/./proj`): `createSession` succeeds but the returned
`worktreePath` is the input string as given, not its resolved
normalized form `/Users/a/proj`. -/
theorem c5_counterexample :
    ((SMState.mk "/Users/" []).createSession
        ⟨"/", ["/Users/a/proj"], ["/Users/a/proj/pubspec.yaml"]⟩
        ⟨fun _ => .ok "TEST-UDID-123", fun _ => .ok (), fun _ => .ok (), fun _ => .ok (),
         fun _ => .ok ()⟩ "sid-1" 0 ⟨"/Users/a/./proj", none⟩).1
      = .ok ⟨"sid-1", "/Users/a/./proj", "TEST-UDID-123", "iPhone 16 Pro", 0⟩ ∧
    resolvePath "/" "/Users/a/./proj" = "/Users/a/proj" ∧
    "/Users/a/./proj" ≠ "/Users/a/proj" := by
  refine ⟨rfl, rfl, by decide⟩

/-- C5 (amended): for every valid path under the prefix that exists, is
a directory and contains `pubspec.yaml` (and whose simulator creation
and boot succeed), `createSession` succeeds and both the returned
`SessionInfo` and the stored session carry the input `worktreePath`
exactly as passed; when the input is already equal to its resolved
normalized form, that is the resolved path. -/
theorem c5_amended_created_path_is_input
    (fs : FS) (world : SimWorld) (st : SMState) (newId : String) (now : Nat)
    (params : CreateSessionParams) (udid : String)
    (hstart : jsStartsWith (resolvePath fs.cwd params.worktreePath) st.allowedPathRoot = true)
    (hex : fs.existsSync (resolvePath fs.cwd params.worktreePath) = true)
    (hdir : fs.isDirectory (resolvePath fs.cwd params.worktreePath) = true)
    (hpub : fs.existsSync
      (joinPath (resolvePath fs.cwd params.worktreePath) "pubspec.yaml") = true)
    (hcr : world.createResult (params.deviceType.getD "iPhone 16 Pro") = .ok udid)
    (hboot : world.bootResult udid = .ok ()) :
    (st.createSession fs world newId now params).1
      = .ok ⟨newId, params.worktreePath, udid,
             params.deviceType.getD "iPhone 16 Pro", now⟩ ∧
    (newId, (⟨newId, params.worktreePath, udid,
             params.deviceType.getD "iPhone 16 Pro", now, false⟩ : Session))
      ∈ (st.createSession fs world newId now params).2.1.sessions ∧
    (params.worktreePath = resolvePath fs.cwd params.worktreePath →
      (st.createSession fs world newId now params).1
        = .ok ⟨newId, resolvePath fs.cwd params.worktreePath, udid,
               params.deviceType.getD "iPhone 16 Pro", now⟩) := by
  have hval : st.validateCreate fs params.worktreePath = .ok () := by
    simp [SMState.validateCreate, hstart, hex, hdir, hpub]
  refine ⟨?_, ?_, ?_⟩
  · simp [SMState.createSession, hval, hcr, hboot]
  · simp only [SMState.createSession, hval, hcr, hboot]
    exact setKey_mem st.sessions newId _
  · intro h
    rw [← h]
    simp [SMState.createSession, hval, hcr, hboot]

theorem c5_witness :
    ((SMState.mk "/Users/" []).createSession
        ⟨"/", ["/Users/a/proj"], ["/Users/a/proj/pubspec.yaml"]⟩
        ⟨fun _ => .ok "TEST-UDID-123", fun _ => .ok (), fun _ => .ok (), fun _ => .ok (),
         fun _ => .ok ()⟩ "sid-1" 0 ⟨"/Users/a/proj", none⟩).1
      = .ok ⟨"sid-1", "/Users/a/proj", "TEST-UDID-123", "iPhone 16 Pro", 0⟩ ∧
    ("sid-1", (⟨"sid-1", "/Users/a/proj", "TEST-UDID-123", "iPhone 16 Pro", 0, false⟩ : Session))
      ∈ ((SMState.mk "/Users/" []).createSession
        ⟨"/", ["/Users/a/proj"], ["/Users/a/proj/pubspec.yaml"]⟩
        ⟨fun _ => .ok "TEST-UDID-123", fun _ => .ok (), fun _ => .ok (), fun _ => .ok (),
         fun _ => .ok ()⟩ "sid-1" 0 ⟨"/Users/a/proj", none⟩).2.1.sessions ∧
    ("/Users/a/proj" = resolvePath "/" "/Users/a/proj" →
      ((SMState.mk "/Users/" []).createSession
        ⟨"/", ["/Users/a/proj"], ["/Users/a/proj/pubspec.yaml"]⟩
        ⟨fun _ => .ok "TEST-UDID-123", fun _ => .ok (), fun _ => .ok (), fun _ => .ok (),
         fun _ => .ok ()⟩ "sid-1" 0 ⟨"/Users/a/proj", none⟩).1
        = .ok ⟨"sid-1", resolvePath "/" "/Users/a/proj", "TEST-UDID-123", "iPhone 16 Pro", 0⟩) :=
  c5_amended_created_path_is_input
    ⟨"/", ["/Users/a/proj"], ["/Users/a/proj/pubspec.yaml"]⟩
    ⟨fun _ => .ok "TEST-UDID-123", fun _ => .ok (), fun _ => .ok (), fun _ => .ok (),
     fun _ => .ok ()⟩ (SMState.mk "/Users/" []) "sid-1" 0 ⟨"/Users/a/proj", none⟩
    "TEST-UDID-123" rfl rfl rfl rfl rfl rfl

theorem getKey_none_keys (l : List (String × Session)) (k : String)
    (h : getKey l k = none) : ∀ kv ∈ l, kv.1 ≠ k := by
  intro kv hm
  unfold getKey at h
  rw [Option.map_eq_none'] at h
  rw [List.find?_eq_none] at h
  have := h kv hm
  simpa using this

theorem getKey_some_key_mem (l : List (String × Session)) (k : String) (v : Session)
    (h : getKey l k = some v) : k ∈ l.map (fun kv => kv.1) := by
  unfold getKey at h
  rw [Option.map_eq_some'] at h
  obtain ⟨kv, hf, hv⟩ := h
  have hm := List.mem_of_find?_eq_some hf
  have hp := List.find?_some hf
  simp at hp
  rw [List.mem_map]
  exact ⟨kv, hm, hp⟩

theorem cleanupLoop_empties (world : SimWorld) (ids : List String) :
    ∀ st : SMState, (∀ kv ∈ st.sessions, kv.1 ∈ ids) →
      (st.cleanupLoop world ids).1.sessions = [] := by
  induction ids with
  | nil =>
    intro st hsub
    show st.sessions = []
    cases hl : st.sessions with
    | nil => rfl
    | cons kv l =>
      exfalso
      have := hsub kv (by rw [hl]; exact List.mem_cons_self kv l)
      exact absurd this (List.not_mem_nil kv.1)
  | cons sid rest ih =>
    intro st hsub
    show (((st.endSession world sid).2.1.cleanupLoop world rest)).1.sessions = []
    apply ih
    intro kv hm
    cases hg : getKey st.sessions sid with
    | none =>
      have hne := getKey_none_keys st.sessions sid hg
      have hst : (st.endSession world sid).2.1 = st := by
        simp [SMState.endSession, hg]
      rw [hst] at hm
      have h1 := hsub kv hm
      have h2 := hne kv hm
      rw [List.mem_cons] at h1
      rcases h1 with h1 | h1
      · exact absurd h1 h2
      · exact h1
    | some s =>
      have hst : (st.endSession world sid).2.1.sessions = eraseKey st.sessions sid := by
        simp [SMState.endSession, hg]
      rw [hst] at hm
      simp only [eraseKey, List.mem_filter] at hm
      obtain ⟨hm1, hm2⟩ := hm
      have h1 := hsub kv hm1
      simp only [decide_not, Bool.not_eq_eq_eq_not, Bool.not_true, decide_eq_false_iff_not] at hm2
      rw [List.mem_cons] at h1
      rcases h1 with h1 | h1
      · exact absurd h1 hm2
      · exact h1

theorem cleanupLoop_effects (world : SimWorld) (ids : List String) :
    ∀ (st : SMState) (k : String) (v : Session), k ∈ ids →
      getKey st.sessions k = some v →
      SimEff.shutdownSim v.simulatorUdid ∈ (st.cleanupLoop world ids).2.1 ∧
      SimEff.deleteSim v.simulatorUdid ∈ (st.cleanupLoop world ids).2.1 := by
  induction ids with
  | nil =>
    intro st k v hk hv
    exact absurd hk (List.not_mem_nil k)
  | cons sid rest ih =>
    intro st k v hk hv
    show _ ∈ (st.endSession world sid).2.2.1
          ++ ((st.endSession world sid).2.1.cleanupLoop world rest).2.1
      ∧ _ ∈ (st.endSession world sid).2.2.1
          ++ ((st.endSession world sid).2.1.cleanupLoop world rest).2.1
    by_cases hks : k = sid
    case pos =>
      subst hks
      have heff : (st.endSession world k).2.2.1 =
          (if v.hasFpm then [.fpmCleanup k] else []) ++
            [.shutdownSim v.simulatorUdid, .deleteSim v.simulatorUdid] := by
        simp [SMState.endSession, hv]
      refine ⟨List.mem_append_left _ ?_, List.mem_append_left _ ?_⟩ <;>
        · rw [heff]
          simp
    case neg =>
      have hk' : k ∈ rest := by
        rw [List.mem_cons] at hk
        rcases hk with hk | hk
        · exact absurd hk hks
        · exact hk
      have hv' : getKey (st.endSession world sid).2.1.sessions k = some v := by
        cases hg : getKey st.sessions sid with
        | none =>
          have hst : (st.endSession world sid).2.1 = st := by
            simp [SMState.endSession, hg]
          rw [hst]
          exact hv
        | some s =>
          have hst : (st.endSession world sid).2.1.sessions = eraseKey st.sessions sid := by
            simp [SMState.endSession, hg]
          rw [hst, getKey_eraseKey_other st.sessions sid k hks]
          exact hv
      have hres := ih (st.endSession world sid).2.1 k v hk' hv'
      exact ⟨List.mem_append_right _ hres.1, List.mem_append_right _ hres.2⟩

/-- C10: for every registered session id, `endSession` returns without
raising, removes exactly that session from the registry, and attempts
the simulator shutdown and deletion (and the process-manager cleanup
when one is attached) whatever the outcome oracles say; an unknown id
raises only not-found and changes nothing; and `cleanup()` ends every
registered session, emptying the registry and attempting every
session's teardown even when some of them fail. -/
theorem c10_end_session_and_cleanup_teardown
    (world : SimWorld) (st : SMState) (sessionId : String) (s : Session)
    (hs : getKey st.sessions sessionId = some s) :
    (st.endSession world sessionId).1 = .ok () ∧
    getKey (st.endSession world sessionId).2.1.sessions sessionId = none ∧
    (∀ k, k ≠ sessionId →
      getKey (st.endSession world sessionId).2.1.sessions k = getKey st.sessions k) ∧
    SimEff.shutdownSim s.simulatorUdid ∈ (st.endSession world sessionId).2.2.1 ∧
    SimEff.deleteSim s.simulatorUdid ∈ (st.endSession world sessionId).2.2.1 ∧
    (s.hasFpm = true →
      SimEff.fpmCleanup sessionId ∈ (st.endSession world sessionId).2.2.1) ∧
    (∀ badId, getKey st.sessions badId = none →
      st.endSession world badId = (.error (.sessionMissing badId), st, [], [])) ∧
    (st.cleanup world).1.sessions = [] ∧
    (∀ k v, getKey st.sessions k = some v →
      SimEff.shutdownSim v.simulatorUdid ∈ (st.cleanup world).2.1 ∧
      SimEff.deleteSim v.simulatorUdid ∈ (st.cleanup world).2.1) := by
  refine ⟨?_, ?_, ?_, ?_, ?_, ?_, ?_, ?_, ?_⟩
  · simp [SMState.endSession, hs]
  · have hst : (st.endSession world sessionId).2.1.sessions
        = eraseKey st.sessions sessionId := by
      simp [SMState.endSession, hs]
    rw [hst]
    exact getKey_eraseKey_self st.sessions sessionId
  · intro k hk
    have hst : (st.endSession world sessionId).2.1.sessions
        = eraseKey st.sessions sessionId := by
      simp [SMState.endSession, hs]
    rw [hst]
    exact getKey_eraseKey_other st.sessions sessionId k hk
  · simp [SMState.endSession, hs]
  · simp [SMState.endSession, hs]
  · intro hfpm
    simp [SMState.endSession, hs, hfpm]
  · intro badId hbad
    simp [SMState.endSession, hbad]
  · show (st.cleanupLoop world (st.sessions.map (fun kv => kv.1))).1.sessions = []
    exact cleanupLoop_empties world _ st (fun kv hm => List.mem_map.mpr ⟨kv, hm, rfl⟩)
  · intro k v hk
    show _ ∈ (st.cleanupLoop world (st.sessions.map (fun kv => kv.1))).2.1
      ∧ _ ∈ (st.cleanupLoop world (st.sessions.map (fun kv => kv.1))).2.1
    exact cleanupLoop_effects world _ st k v (getKey_some_key_mem _ _ _ hk) hk

theorem c10_witness :
    (exState.endSession exWorld "s1").1 = .ok () ∧
    getKey (exState.endSession exWorld "s1").2.1.sessions "s1" = none ∧
    (∀ k, k ≠ "s1" →
      getKey (exState.endSession exWorld "s1").2.1.sessions k = getKey exState.sessions k) ∧
    SimEff.shutdownSim exSession1.simulatorUdid ∈ (exState.endSession exWorld "s1").2.2.1 ∧
    SimEff.deleteSim exSession1.simulatorUdid ∈ (exState.endSession exWorld "s1").2.2.1 ∧
    (exSession1.hasFpm = true →
      SimEff.fpmCleanup "s1" ∈ (exState.endSession exWorld "s1").2.2.1) ∧
    (∀ badId, getKey exState.sessions badId = none →
      exState.endSession exWorld badId = (.error (.sessionMissing badId), exState, [], [])) ∧
    (exState.cleanup exWorld).1.sessions = [] ∧
    (∀ k v, getKey exState.sessions k = some v →
      SimEff.shutdownSim v.simulatorUdid ∈ (exState.cleanup exWorld).2.1 ∧
      SimEff.deleteSim v.simulatorUdid ∈ (exState.cleanup exWorld).2.1) :=
  c10_end_session_and_cleanup_teardown exWorld exState "s1" exSession1 rfl

/-! ## FlutterProcessManager lemmas -/

theorem checkArg_error_shape (a : String) (e : StartErr)
    (h : checkArg a = .error e) : e = .invalidArg a := by
  simp only [checkArg] at h
  split_ifs at h <;> simp_all

theorem checkArgs_error_shape (args : List String) (e : StartErr)
    (h : checkArgs args = .error e) :
    ∃ a, a ∈ args ∧ checkArg a = .error e ∧ e = .invalidArg a := by
  induction args with
  | nil => simp [checkArgs] at h
  | cons a rest ih =>
    simp only [checkArgs] at h
    cases hc : checkArg a with
    | ok u =>
      rw [hc] at h
      obtain ⟨b, hb, hcb, he⟩ := ih h
      exact ⟨b, List.mem_cons_of_mem a hb, hcb, he⟩
    | error e2 =>
      rw [hc] at h
      simp only [Except.error.injEq] at h
      subst h
      exact ⟨a, List.mem_cons_self a rest, hc, checkArg_error_shape a _ hc⟩

theorem checkArgs_ok_iff (args : List String) :
    checkArgs args = .ok () ↔ ∀ a ∈ args, checkArg a = .ok () := by
  induction args with
  | nil => simp [checkArgs]
  | cons a rest ih =>
    simp only [checkArgs]
    cases hc : checkArg a with
    | ok u =>
      cases u
      simp [hc, ih]
    | error e => simp [hc]

theorem checkFlavor_error_shape (f : Option String) (e : StartErr)
    (h : checkFlavor f = .error e) : ∃ fl, f = some fl ∧ e = .invalidFlavor fl := by
  cases f with
  | none => simp [checkFlavor] at h
  | some fl =>
    simp only [checkFlavor] at h
    split_ifs at h
    all_goals simp_all

theorem checkTarget_error_shape (fs : FS) (w : String) (t : Option String) (e : StartErr)
    (h : checkTarget fs w t = .error e) :
    ∃ s, t = some s ∧ (e = .pathEscape s ∨ e = .targetMissing s ∨ e = .invalidEntryType s) := by
  cases t with
  | none => simp [checkTarget] at h
  | some s =>
    simp only [checkTarget] at h
    split_ifs at h
    all_goals simp_all

theorem start_success (m : FPM) (fs : FS) (o : FlutterRunOptions) (pid : Nat)
    (hm : m.processAttached = false)
    (h1 : checkTarget fs o.worktreePath o.target = .ok ())
    (h2 : checkFlavor o.flavor = .ok ())
    (h3 : checkAdditionalArgs o.additionalArgs = .ok ()) :
    m.start fs o pid =
      (.ok ⟨pid, if pid ≠ 0 then .running else .starting, none⟩,
       { m with processAttached := true,
                flutterProcess := some ⟨pid, if pid ≠ 0 then .running else .starting, none⟩ },
       [.spawn "flutter" (buildArgs o) o.worktreePath]) := by
  simp [FPM.start, hm, h1, h2, h3]

theorem start_error_cases (m : FPM) (fs : FS) (o : FlutterRunOptions) (pid : Nat)
    (e : StartErr) (hm : m.processAttached = false)
    (h : (m.start fs o pid).1 = .error e) :
    m.start fs o pid = (.error e, m, []) ∧
    (checkTarget fs o.worktreePath o.target = .error e ∨
     checkFlavor o.flavor = .error e ∨
     checkAdditionalArgs o.additionalArgs = .error e) := by
  cases ht : checkTarget fs o.worktreePath o.target with
  | error e1 =>
    have hstep : m.start fs o pid = (.error e1, m, []) := by
      simp [FPM.start, hm, ht]
    rw [hstep] at h
    simp only [Except.error.injEq] at h
    subst h
    exact ⟨hstep, Or.inl rfl⟩
  | ok u1 =>
    cases u1
    cases hf : checkFlavor o.flavor with
    | error e2 =>
      have hstep : m.start fs o pid = (.error e2, m, []) := by
        simp [FPM.start, hm, ht, hf]
      rw [hstep] at h
      simp only [Except.error.injEq] at h
      subst h
      exact ⟨hstep, Or.inr (Or.inl rfl)⟩
    | ok u2 =>
      cases u2
      cases ha : checkAdditionalArgs o.additionalArgs with
      | error e3 =>
        have hstep : m.start fs o pid = (.error e3, m, []) := by
          simp [FPM.start, hm, ht, hf, ha]
        rw [hstep] at h
        simp only [Except.error.injEq] at h
        subst h
        exact ⟨hstep, Or.inr (Or.inr rfl)⟩
      | ok u3 =>
        cases u3
        rw [start_success m fs o pid hm ht hf ha] at h
        simp at h

theorem detect_attached (m : FPM) (l : String) :
    (m.detectStatusChanges l).processAttached = m.processAttached := by
  unfold FPM.detectStatusChanges
  cases m.flutterProcess with
  | none => rfl
  | some fp => split_ifs <;> rfl

theorem processLine_attached (m : FPM) (l : String) :
    (m.processLine l).1.processAttached = m.processAttached := by
  unfold FPM.processLine
  split_ifs
  · rfl
  · rw [detect_attached]

theorem processLines_attached (L : List String) :
    ∀ m : FPM, (m.processLines L).1.processAttached = m.processAttached := by
  induction L with
  | nil => intro m; rfl
  | cons l ls ih =>
    intro m
    show ((m.processLine l).1.processLines ls).1.processAttached = _
    rw [ih, processLine_attached]

/-- C9: `start` throws already-running exactly when a subprocess
handle is attached; a successful `start` attaches the handle; only the
exit handler releases it; output, timer and stop events never change
attachment; and a failed `start` leaves the supervisor unchanged — so
a second `start` is rejected precisely between a successful `start`
and the run of the exit callback. -/
theorem c9_already_running_iff_attached
    (m : FPM) (fs : FS) (o : FlutterRunOptions) (observedPid : Nat)
    (code : Option Int) (signal : Option String) (data : String) :
    ((m.start fs o observedPid).1 = .error .alreadyRunning ↔ m.processAttached = true) ∧
    (∀ fp, (m.start fs o observedPid).1 = .ok fp →
      (m.start fs o observedPid).2.1.processAttached = true) ∧
    ((m.handleExit code signal).processAttached = false) ∧
    ((m.handleOutput data).1.processAttached = m.processAttached) ∧
    (m.fireReloadTimer.processAttached = m.processAttached) ∧
    ((m.stop).2.processAttached = m.processAttached) ∧
    (∀ e, (m.start fs o observedPid).1 = .error e →
      (m.start fs o observedPid).2.1 = m ∧ (m.start fs o observedPid).2.2 = []) := by
  refine ⟨?_, ?_, ?_, ?_, ?_, ?_, ?_⟩
  · cases hm : m.processAttached
    case true => simp [FPM.start, hm]
    case false =>
      simp only [Bool.false_eq_true, iff_false]
      intro h
      rcases (start_error_cases m fs o observedPid _ hm h).2 with hc | hc | hc
      · obtain ⟨s, _, hs⟩ := checkTarget_error_shape fs o.worktreePath o.target _ hc
        rcases hs with hs | hs | hs <;> exact StartErr.noConfusion hs
      · obtain ⟨fl, _, hs⟩ := checkFlavor_error_shape o.flavor _ hc
        exact StartErr.noConfusion hs
      · cases ha : o.additionalArgs with
        | none => rw [ha] at hc; simp [checkAdditionalArgs] at hc
        | some args =>
          rw [ha] at hc
          obtain ⟨a, _, _, hs⟩ := checkArgs_error_shape args _ hc
          exact StartErr.noConfusion hs
  · intro fp hok
    cases hm : m.processAttached
    case true => simp [FPM.start, hm] at hok
    case false =>
      cases ht : checkTarget fs o.worktreePath o.target with
      | error e1 =>
        have : m.start fs o observedPid = (.error e1, m, []) := by
          simp [FPM.start, hm, ht]
        rw [this] at hok
        simp at hok
      | ok u1 =>
        cases u1
        cases hf : checkFlavor o.flavor with
        | error e2 =>
          have : m.start fs o observedPid = (.error e2, m, []) := by
            simp [FPM.start, hm, ht, hf]
          rw [this] at hok
          simp at hok
        | ok u2 =>
          cases u2
          cases ha : checkAdditionalArgs o.additionalArgs with
          | error e3 =>
            have : m.start fs o observedPid = (.error e3, m, []) := by
              simp [FPM.start, hm, ht, hf, ha]
            rw [this] at hok
            simp at hok
          | ok u3 =>
            cases u3
            rw [start_success m fs o observedPid hm ht hf ha]
  · unfold FPM.handleExit
    cases m.flutterProcess <;> rfl
  · exact processLines_attached _ m
  · unfold FPM.fireReloadTimer
    split_ifs
    · rfl
    · cases m.flutterProcess <;> rfl
  · rfl
  · intro e he
    by_cases hm : m.processAttached = true
    · have : m.start fs o observedPid = (.error .alreadyRunning, m, []) := by
        simp [FPM.start, hm]
      rw [this]
      exact ⟨rfl, rfl⟩
    · have hm' : m.processAttached = false := by
        simpa using hm
      have := (start_error_cases m fs o observedPid e hm' he).1
      rw [this]
      exact ⟨rfl, rfl⟩

theorem c9_witness :
    ((exFpm.start ⟨"/", [], []⟩ ⟨"/proj", "dev-1", none, none, none⟩ 7).1
        = .error .alreadyRunning ↔ exFpm.processAttached = true) ∧
    (∀ fp, (exFpm.start ⟨"/", [], []⟩ ⟨"/proj", "dev-1", none, none, none⟩ 7).1 = .ok fp →
      (exFpm.start ⟨"/", [], []⟩ ⟨"/proj", "dev-1", none, none, none⟩ 7).2.1.processAttached
        = true) ∧
    ((exFpm.handleExit (some 0) none).processAttached = false) ∧
    ((exFpm.handleOutput "hello").1.processAttached = exFpm.processAttached) ∧
    (exFpm.fireReloadTimer.processAttached = exFpm.processAttached) ∧
    ((exFpm.stop).2.processAttached = exFpm.processAttached) ∧
    (∀ e, (exFpm.start ⟨"/", [], []⟩ ⟨"/proj", "dev-1", none, none, none⟩ 7).1 = .error e →
      (exFpm.start ⟨"/", [], []⟩ ⟨"/proj", "dev-1", none, none, none⟩ 7).2.1 = exFpm ∧
      (exFpm.start ⟨"/", [], []⟩ ⟨"/proj", "dev-1", none, none, none⟩ 7).2.2 = []) :=
  c9_already_running_iff_attached exFpm ⟨"/", [], []⟩ ⟨"/proj", "dev-1", none, none, none⟩ 7
    (some 0) none "hello"

/-- C4: the scheduled hot-reload `setTimeout` transition is not
cancelled when the subprocess exits.  Concretely: after a reload-marker
line, a clean exit sets the terminal status `stopped` and releases the
handle, but the still-pending timer callback — which guards only on
`this.flutterProcess` being present — then overwrites the status with
`running`.  This evaluates the code at the failing trace and exhibits
the divergence from the claimed terminal-state behaviour. -/
theorem c4_reload_timer_fires_after_exit :
    (((FPM.mkNew 10).runEvents ⟨"/", [], []⟩
        [.startEv ⟨"/proj", "dev-1", none, none, none⟩ 42,
         .outputEv "Reloaded 1 of 499 libraries in 234ms.",
         .exitEv (some 0) none]).flutterProcess.map FlutterProc.status
      = some .stopped) ∧
    (((FPM.mkNew 10).runEvents ⟨"/", [], []⟩
        [.startEv ⟨"/proj", "dev-1", none, none, none⟩ 42,
         .outputEv "Reloaded 1 of 499 libraries in 234ms.",
         .exitEv (some 0) none]).processAttached = false) ∧
    (((FPM.mkNew 10).runEvents ⟨"/", [], []⟩
        [.startEv ⟨"/proj", "dev-1", none, none, none⟩ 42,
         .outputEv "Reloaded 1 of 499 libraries in 234ms.",
         .exitEv (some 0) none]).pendingReloadTimers = 1) ∧
    ((((FPM.mkNew 10).runEvents ⟨"/", [], []⟩
        [.startEv ⟨"/proj", "dev-1", none, none, none⟩ 42,
         .outputEv "Reloaded 1 of 499 libraries in 234ms.",
         .exitEv (some 0) none]).fireReloadTimer).flutterProcess.map FlutterProc.status
      = some .running) :=
  ⟨rfl, rfl, rfl, rfl⟩

theorem checkTarget_pathEscape_iff (fs : FS) (w t : String) :
    checkTarget fs w (some t) = .error (.pathEscape t) ↔
      jsStartsWith (resolvePath (resolvePath fs.cwd w) t) (resolvePath fs.cwd w) = false := by
  simp only [checkTarget]
  split_ifs with h1 h2 h3
  all_goals simp_all

/-- C2 counterexample: with project path `/proj`, the target
`../proj-evil/main.dart` resolves to `/proj-evil/main.dart` — outside
the project directory, in the sibling `/proj-evil` — yet `start` does
not raise path-escape: the raw string-prefix check accepts it and the
subprocess is spawned. -/
theorem c2_counterexample :
    resolvePath (resolvePath "/" "/proj") "../proj-evil/main.dart"
      = "/proj-evil/main.dart" ∧
    jsStartsWith "/proj-evil/main.dart" "/proj/" = false ∧
    "/proj-evil/main.dart" ≠ "/proj" ∧
    ((FPM.mkNew 10).start ⟨"/", ["/proj", "/proj-evil"], ["/proj-evil/main.dart"]⟩
        ⟨"/proj", "dev-1", some "../proj-evil/main.dart", none, none⟩ 42).1
      = .ok ⟨42, .running, none⟩ ∧
    ((FPM.mkNew 10).start ⟨"/", ["/proj", "/proj-evil"], ["/proj-evil/main.dart"]⟩
        ⟨"/proj", "dev-1", some "../proj-evil/main.dart", none, none⟩ 42).2.2
      = [.spawn "flutter" ["run", "-d", "dev-1", "-t", "../proj-evil/main.dart"] "/proj"] :=
  ⟨rfl, rfl, by decide, rfl, rfl⟩

/-- C2 (amended): with a target supplied, `start` fails with
path-escape exactly when the resolved target does not start — by raw
string-prefix comparison, which also admits sibling directories whose
name extends the resolved project path — with the resolved project
path; when the prefix check passes, it fails with not-found if the
resolved file does not exist, and with invalid-entry-type unless it
ends in `.dart`; and whenever `start` fails, no subprocess is spawned
and the supervisor is unchanged. -/
theorem c2_amended_target_validation
    (m : FPM) (fs : FS) (o : FlutterRunOptions) (pid : Nat) (t : String)
    (hatt : m.processAttached = false) (ht : o.target = some t) :
    ((m.start fs o pid).1 = .error (.pathEscape t) ↔
      jsStartsWith (resolvePath (resolvePath fs.cwd o.worktreePath) t)
        (resolvePath fs.cwd o.worktreePath) = false) ∧
    (jsStartsWith (resolvePath (resolvePath fs.cwd o.worktreePath) t)
        (resolvePath fs.cwd o.worktreePath) = true →
      fs.existsSync (resolvePath (resolvePath fs.cwd o.worktreePath) t) = false →
      (m.start fs o pid).1 = .error (.targetMissing t)) ∧
    (jsStartsWith (resolvePath (resolvePath fs.cwd o.worktreePath) t)
        (resolvePath fs.cwd o.worktreePath) = true →
      fs.existsSync (resolvePath (resolvePath fs.cwd o.worktreePath) t) = true →
      jsEndsWith (resolvePath (resolvePath fs.cwd o.worktreePath) t) ".dart" = false →
      (m.start fs o pid).1 = .error (.invalidEntryType t)) ∧
    (∀ e, (m.start fs o pid).1 = .error e →
      (m.start fs o pid).2.1 = m ∧ (m.start fs o pid).2.2 = []) := by
  refine ⟨⟨?_, ?_⟩, ?_, ?_, ?_⟩
  · intro h
    rcases (start_error_cases m fs o pid _ hatt h).2 with hc | hc | hc
    · rw [ht] at hc
      exact (checkTarget_pathEscape_iff fs o.worktreePath t).mp hc
    · obtain ⟨fl, _, hs⟩ := checkFlavor_error_shape o.flavor _ hc
      exact StartErr.noConfusion hs
    · cases ha : o.additionalArgs with
      | none =>
        rw [ha] at hc
        simp [checkAdditionalArgs] at hc
      | some args =>
        rw [ha] at hc
        obtain ⟨a, _, _, hs⟩ := checkArgs_error_shape args _ hc
        exact StartErr.noConfusion hs
  · intro h
    have hct : checkTarget fs o.worktreePath o.target = .error (.pathEscape t) := by
      rw [ht]
      exact (checkTarget_pathEscape_iff fs o.worktreePath t).mpr h
    simp [FPM.start, hatt, hct]
  · intro hjs hex
    have hct : checkTarget fs o.worktreePath o.target = .error (.targetMissing t) := by
      rw [ht]
      simp only [checkTarget]
      rw [if_neg (by simp [hjs]), if_pos (by simp [hex])]
    simp [FPM.start, hatt, hct]
  · intro hjs hex hdart
    have hct : checkTarget fs o.worktreePath o.target = .error (.invalidEntryType t) := by
      rw [ht]
      simp only [checkTarget]
      rw [if_neg (by simp [hjs]), if_neg (by simp [hex]), if_pos (by simp [hdart])]
    simp [FPM.start, hatt, hct]
  · intro e he
    have hcase := (start_error_cases m fs o pid e hatt he).1
    rw [hcase]
    exact ⟨rfl, rfl⟩

theorem c2_witness :
    (((FPM.mkNew 10).start ⟨"/", ["/proj"], []⟩
          ⟨"/proj", "dev-1", some "lib/main.dart", none, none⟩ 7).1
        = .error (.pathEscape "lib/main.dart") ↔
      jsStartsWith (resolvePath (resolvePath "/" "/proj") "lib/main.dart")
        (resolvePath "/" "/proj") = false) ∧
    (jsStartsWith (resolvePath (resolvePath "/" "/proj") "lib/main.dart")
        (resolvePath "/" "/proj") = true →
      FS.existsSync ⟨"/", ["/proj"], []⟩
        (resolvePath (resolvePath "/" "/proj") "lib/main.dart") = false →
      ((FPM.mkNew 10).start ⟨"/", ["/proj"], []⟩
          ⟨"/proj", "dev-1", some "lib/main.dart", none, none⟩ 7).1
        = .error (.targetMissing "lib/main.dart")) ∧
    (jsStartsWith (resolvePath (resolvePath "/" "/proj") "lib/main.dart")
        (resolvePath "/" "/proj") = true →
      FS.existsSync ⟨"/", ["/proj"], []⟩
        (resolvePath (resolvePath "/" "/proj") "lib/main.dart") = true →
      jsEndsWith (resolvePath (resolvePath "/" "/proj") "lib/main.dart") ".dart" = false →
      ((FPM.mkNew 10).start ⟨"/", ["/proj"], []⟩
          ⟨"/proj", "dev-1", some "lib/main.dart", none, none⟩ 7).1
        = .error (.invalidEntryType "lib/main.dart")) ∧
    (∀ e, ((FPM.mkNew 10).start ⟨"/", ["/proj"], []⟩
          ⟨"/proj", "dev-1", some "lib/main.dart", none, none⟩ 7).1 = .error e →
      ((FPM.mkNew 10).start ⟨"/", ["/proj"], []⟩
          ⟨"/proj", "dev-1", some "lib/main.dart", none, none⟩ 7).2.1 = FPM.mkNew 10 ∧
      ((FPM.mkNew 10).start ⟨"/", ["/proj"], []⟩
          ⟨"/proj", "dev-1", some "lib/main.dart", none, none⟩ 7).2.2 = []) :=
  c2_amended_target_validation (FPM.mkNew 10) ⟨"/", ["/proj"], []⟩
    ⟨"/proj", "dev-1", some "lib/main.dart", none, none⟩ 7 "lib/main.dart" rfl rfl

theorem isPrefixOf_iff_exists (l1 : List Char) :
    ∀ l2, l1.isPrefixOf l2 = true ↔ ∃ t, l1 ++ t = l2 := by
  induction l1 with
  | nil =>
    intro l2
    simp [List.isPrefixOf]
  | cons c cs ih =>
    intro l2
    cases l2 with
    | nil => simp [List.isPrefixOf]
    | cons d ds =>
      simp only [List.isPrefixOf, Bool.and_eq_true, beq_iff_eq]
      rw [ih ds]
      constructor
      · rintro ⟨hcd, t, htl⟩
        exact ⟨t, by simp [hcd, htl]⟩
      · rintro ⟨t, htl⟩
        simp only [List.cons_append, List.cons.injEq] at htl
        exact ⟨htl.1, t, htl.2⟩

theorem dartDefineTail_iff (l : List Char) :
    dartDefineTail l = true ↔
      ∃ k v, l = k ++ '=' :: v ∧ k.all idCharOk = true ∧
        v.all (fun d => !isLineTerminator d) = true := by
  induction l with
  | nil =>
    constructor
    · intro h
      exact absurd h (by simp [dartDefineTail])
    · rintro ⟨k, v, hkv, _, _⟩
      cases k <;> simp_all
  | cons c rest ih =>
    by_cases hc : c = '='
    case pos =>
      subst hc
      constructor
      · intro h
        refine ⟨[], rest, rfl, rfl, ?_⟩
        simpa [dartDefineTail] using h
      · rintro ⟨k, v, hkv, hall, hv⟩
        cases k with
        | nil =>
          simp only [List.nil_append, List.cons.injEq, true_and] at hkv
          show dartDefineTail ('=' :: rest) = true
          rw [show rest = v from hkv]
          simpa [dartDefineTail] using hv
        | cons k0 ks =>
          simp only [List.cons_append, List.cons.injEq] at hkv
          obtain ⟨hk0, _⟩ := hkv
          simp only [List.all_cons, Bool.and_eq_true] at hall
          rw [← hk0] at hall
          exact absurd hall.1 (by decide)
    case neg =>
      constructor
      · intro h
        simp only [dartDefineTail, if_neg hc, Bool.and_eq_true] at h
        obtain ⟨h1, h2⟩ := h
        obtain ⟨k, v, hkv, hall, hv⟩ := ih.mp h2
        refine ⟨c :: k, v, by rw [hkv]; rfl, ?_, hv⟩
        simp [List.all_cons, h1, hall]
      · rintro ⟨k, v, hkv, hall, hv⟩
        cases k with
        | nil =>
          simp only [List.nil_append, List.cons.injEq] at hkv
          exact absurd hkv.1 hc
        | cons k0 ks =>
          simp only [List.cons_append, List.cons.injEq] at hkv
          obtain ⟨hck, hrest⟩ := hkv
          simp only [List.all_cons, Bool.and_eq_true] at hall
          obtain ⟨hk0, hks⟩ := hall
          simp only [dartDefineTail, if_neg hc, Bool.and_eq_true]
          refine ⟨by rw [hck]; exact hk0, ?_⟩
          exact ih.mpr ⟨ks, v, hrest, hks, hv⟩

theorem dartDefineBodyOk_iff (l : List Char) :
    dartDefineBodyOk l = true ↔
      ∃ k v, l = k ++ '=' :: v ∧
        (match k with
         | [] => False
         | c :: rest => idStartOk c = true ∧ rest.all idCharOk = true) ∧
        v.all (fun d => !isLineTerminator d) = true := by
  cases l with
  | nil =>
    constructor
    · intro h
      exact absurd h (by simp [dartDefineBodyOk])
    · rintro ⟨k, v, hkv, hk, _⟩
      cases k with
      | nil => exact hk.elim
      | cons k0 ks => simp at hkv
  | cons c rest =>
    constructor
    · intro h
      simp only [dartDefineBodyOk, Bool.and_eq_true] at h
      obtain ⟨h1, h2⟩ := h
      obtain ⟨ks, v, hkv, hall, hv⟩ := (dartDefineTail_iff rest).mp h2
      exact ⟨c :: ks, v, by rw [hkv]; rfl, ⟨h1, hall⟩, hv⟩
    · rintro ⟨k, v, hkv, hk, hv⟩
      cases k with
      | nil => exact hk.elim
      | cons k0 ks =>
        obtain ⟨hstart, hall⟩ := hk
        simp only [List.cons_append, List.cons.injEq] at hkv
        obtain ⟨hck, hrest⟩ := hkv
        simp only [dartDefineBodyOk, Bool.and_eq_true]
        refine ⟨by rw [hck]; exact hstart, ?_⟩
        exact (dartDefineTail_iff rest).mpr ⟨ks, v, hrest, hall, hv⟩

theorem checkArg_ok_iff (a : String) :
    checkArg a = .ok () ↔ (a ∈ ALLOWED_ARGS ∨ specDartDefineStrict a) := by
  simp only [checkArg]
  by_cases hmem : ALLOWED_ARGS.contains a
  case pos =>
    have hm : a ∈ ALLOWED_ARGS := by simpa using hmem
    rw [if_pos hmem]
    simp [hm]
  case neg =>
    have hm : a ∉ ALLOWED_ARGS := by simpa using hmem
    rw [if_neg hmem]
    by_cases hpre : jsStartsWith a "--dart-define="
    case pos =>
      rw [if_pos hpre]
      have hprefix : ∃ t, "--dart-define=".data ++ t = a.data := by
        rw [← isPrefixOf_iff_exists]
        exact hpre
      obtain ⟨tail, htail⟩ := hprefix
      have hdrop : (jsDrop a 14).data = tail := by
        show a.data.drop 14 = tail
        rw [← htail]
        have h14 : ("--dart-define=".data).length = 14 := rfl
        rw [← h14]
        exact List.drop_left "--dart-define=".data tail
      split_ifs with hbody
      case pos =>
        constructor
        · intro _
          right
          obtain ⟨k, v, hkv, hident, hv⟩ := (dartDefineBodyOk_iff _).mp hbody
          rw [hdrop] at hkv
          refine ⟨k, v, ?_, hident, hv⟩
          rw [← htail, hkv]
          exact (List.append_assoc _ _ _).symm
        · intro _
          rfl
      case neg =>
        constructor
        · intro h
          exact absurd h (by simp)
        · rintro (h | ⟨k, v, hkv, hident, hv⟩)
          · exact absurd h hm
          · apply absurd _ hbody
            apply (dartDefineBodyOk_iff _).mpr
            refine ⟨k, v, ?_, hident, hv⟩
            rw [hdrop]
            have heq : "--dart-define=".data ++ tail
                = "--dart-define=".data ++ (k ++ '=' :: v) := by
              rw [htail, hkv]
              exact List.append_assoc _ _ _
            exact List.append_cancel_left heq
    case neg =>
      rw [if_neg hpre]
      constructor
      · intro h
        exact absurd h (by simp)
      · rintro (h | ⟨k, v, hkv, hident, hv⟩)
        · exact absurd h hm
        · apply absurd _ hpre
          show jsStartsWith a "--dart-define=" = true
          unfold jsStartsWith
          rw [isPrefixOf_iff_exists]
          exact ⟨k ++ '=' :: v, hkv.symm⟩

/-- C3 counterexample: the argument `--dart-define=FOO=bar\nbaz` has
exactly the claimed form — `--dart-define=KEY=VALUE` with `KEY` = `FOO`
matching `[A-Za-z_][A-Za-z0-9_]*` — yet the source rejects it: under
ECMAScript semantics the regex `^[A-Za-z_][A-Za-z0-9_]*=.*$` cannot
match a value containing a line terminator (`.` excludes them and `$`
anchors at end of input), so `start` fails with the invalid-argument
error naming it. -/
theorem c3_counterexample :
    specDartDefine "--dart-define=FOO=bar\nbaz" ∧
    checkArg "--dart-define=FOO=bar\nbaz"
      = .error (.invalidArg "--dart-define=FOO=bar\nbaz") :=
  ⟨⟨"FOO".data, "bar\nbaz".data, rfl, by decide⟩, rfl⟩

/-- C3 (amended): an extra argument is accepted exactly when it is one
of the fixed allow-list flags or has the form `--dart-define=KEY=VALUE`
with `KEY` matching `[A-Za-z_][A-Za-z0-9_]*` and `VALUE` free of line
terminators (the ECMAScript regex `.*$` matches the rest of the input
only when no line terminator occurs); with target and flavor absent,
`start` succeeds exactly when every supplied argument is acceptable,
and otherwise fails with an invalid-argument error carrying an
offending argument, with no subprocess spawned and the supervisor
unchanged. -/
theorem c3_additional_args_allowlist
    (m : FPM) (fs : FS) (o : FlutterRunOptions) (pid : Nat) (args : List String)
    (hatt : m.processAttached = false) (ht : o.target = none) (hf : o.flavor = none)
    (ha : o.additionalArgs = some args) :
    (∀ a, checkArg a = .ok () ↔ (a ∈ ALLOWED_ARGS ∨ specDartDefineStrict a)) ∧
    ((∀ a ∈ args, a ∈ ALLOWED_ARGS ∨ specDartDefineStrict a) ↔
      ∃ fp, (m.start fs o pid).1 = .ok fp) ∧
    (∀ e, (m.start fs o pid).1 = .error e →
      (∃ a, a ∈ args ∧ ¬ (a ∈ ALLOWED_ARGS ∨ specDartDefineStrict a) ∧ e = .invalidArg a) ∧
      (m.start fs o pid).2.1 = m ∧ (m.start fs o pid).2.2 = []) := by
  have hTok : checkTarget fs o.worktreePath o.target = .ok () := by
    rw [ht]
    rfl
  have hFok : checkFlavor o.flavor = .ok () := by
    rw [hf]
    rfl
  refine ⟨checkArg_ok_iff, ⟨?_, ?_⟩, ?_⟩
  · intro hall
    have hargs : checkArgs args = .ok () := by
      rw [checkArgs_ok_iff]
      intro a hamem
      exact (checkArg_ok_iff a).mpr (hall a hamem)
    have hA : checkAdditionalArgs o.additionalArgs = .ok () := by
      rw [ha]
      exact hargs
    rw [start_success m fs o pid hatt hTok hFok hA]
    exact ⟨_, rfl⟩
  · rintro ⟨fp, hok⟩
    intro a hamem
    rw [← checkArg_ok_iff]
    cases hc : checkArg a with
    | ok u =>
      cases u
      rfl
    | error e =>
      exfalso
      cases hca : checkArgs args with
      | ok u2 =>
        have := (checkArgs_ok_iff args).mp hca a hamem
        rw [hc] at this
        exact Except.noConfusion this
      | error e2 =>
        have hA : checkAdditionalArgs o.additionalArgs = .error e2 := by
          rw [ha]
          exact hca
        have hred : m.start fs o pid = (.error e2, m, []) := by
          simp [FPM.start, hatt, hTok, hFok, hA]
        rw [hred] at hok
        exact Except.noConfusion hok
  · intro e he
    have hcase := (start_error_cases m fs o pid e hatt he).1
    rcases (start_error_cases m fs o pid e hatt he).2 with hc | hc | hc
    · rw [hTok] at hc
      exact absurd hc (by simp)
    · rw [hFok] at hc
      exact absurd hc (by simp)
    · rw [ha] at hc
      obtain ⟨a, hamem, hca, hinv⟩ := checkArgs_error_shape args e hc
      refine ⟨⟨a, hamem, ?_, hinv⟩, by rw [hcase], by rw [hcase]⟩
      rw [← checkArg_ok_iff]
      intro hok
      rw [hok] at hca
      exact Except.noConfusion hca

theorem c3_witness :
    (∀ a, checkArg a = .ok () ↔ (a ∈ ALLOWED_ARGS ∨ specDartDefineStrict a)) ∧
    ((∀ a ∈ ["--verbose", "--dart-define=FOO=bar"],
        a ∈ ALLOWED_ARGS ∨ specDartDefineStrict a) ↔
      ∃ fp, ((FPM.mkNew 10).start ⟨"/", [], []⟩
        ⟨"/proj", "dev-1", none, none, some ["--verbose", "--dart-define=FOO=bar"]⟩ 7).1
          = .ok fp) ∧
    (∀ e, ((FPM.mkNew 10).start ⟨"/", [], []⟩
        ⟨"/proj", "dev-1", none, none, some ["--verbose", "--dart-define=FOO=bar"]⟩ 7).1
          = .error e →
      (∃ a, a ∈ ["--verbose", "--dart-define=FOO=bar"] ∧
        ¬ (a ∈ ALLOWED_ARGS ∨ specDartDefineStrict a) ∧ e = .invalidArg a) ∧
      ((FPM.mkNew 10).start ⟨"/", [], []⟩
        ⟨"/proj", "dev-1", none, none, some ["--verbose", "--dart-define=FOO=bar"]⟩ 7).2.1
          = FPM.mkNew 10 ∧
      ((FPM.mkNew 10).start ⟨"/", [], []⟩
        ⟨"/proj", "dev-1", none, none, some ["--verbose", "--dart-define=FOO=bar"]⟩ 7).2.2
          = []) :=
  c3_additional_args_allowlist (FPM.mkNew 10) ⟨"/", [], []⟩
    ⟨"/proj", "dev-1", none, none, some ["--verbose", "--dart-define=FOO=bar"]⟩ 7
    ["--verbose", "--dart-define=FOO=bar"] rfl rfl rfl rfl

theorem notifyAll_spec (subs : List Subscriber) (line : String) :
    notifyAll subs line
      = (subs.map (fun s => (s.sid, line)),
         (subs.filter (fun s => s.throws line)).map (fun s => (s.sid, line))) := by
  induction subs with
  | nil => rfl
  | cons s rest ih =>
    simp only [notifyAll, ih, List.map_cons, List.filter_cons]
    by_cases hthrow : s.throws line
    · simp [hthrow]
    · simp [hthrow]

theorem detect_fields (m : FPM) (l : String) :
    (m.detectStatusChanges l).logBuffer = m.logBuffer ∧
    (m.detectStatusChanges l).logSubscribers = m.logSubscribers ∧
    (m.detectStatusChanges l).flutterProcess
      = (match m.flutterProcess with
         | none => none
         | some fp => some (if isReloadMarker l
                            then { fp with status := FlutterStatus.hotReloading } else fp)) ∧
    (m.detectStatusChanges l).pendingReloadTimers
      = m.pendingReloadTimers +
          (match m.flutterProcess with
           | none => 0
           | some _ => if isReloadMarker l then 1 else 0) := by
  cases hfp : m.flutterProcess with
  | none =>
    have hd : m.detectStatusChanges l = m := by
      unfold FPM.detectStatusChanges
      rw [hfp]
    rw [hd, hfp]
    exact ⟨rfl, rfl, rfl, rfl⟩
  | some fp =>
    have hd : m.detectStatusChanges l =
        (if isReloadMarker l then
          { m with flutterProcess := some { fp with status := FlutterStatus.hotReloading },
                   pendingReloadTimers := m.pendingReloadTimers + 1 }
         else m) := by
      unfold FPM.detectStatusChanges
      rw [hfp]
    rw [hd]
    by_cases hmk : isReloadMarker l
    · simp [hmk]
    · simp [hmk, hfp]

theorem processLine_spec (m : FPM) (l : String)
    (h : ((jsTrim l).data.isEmpty) = false) :
    m.processLine l
      = (({ m with logBuffer := m.logBuffer.append l 0 }).detectStatusChanges l,
         m.logSubscribers.map (fun s => (s.sid, l)),
         (m.logSubscribers.filter (fun s => s.throws l)).map (fun s => (s.sid, l))) := by
  simp only [FPM.processLine, h, Bool.false_eq_true, if_false, notifyAll_spec]

theorem processLine_skip (m : FPM) (l : String)
    (h : ((jsTrim l).data.isEmpty) = true) :
    m.processLine l = (m, [], []) := by
  simp only [FPM.processLine, h, if_true]

theorem processLines_spec (L : List String) :
    ∀ m : FPM,
      (m.processLines L).1.logBuffer
          = m.logBuffer.appendAll (L.filter (fun l => !(jsTrim l).data.isEmpty)) ∧
      (m.processLines L).2.1
          = ((L.filter (fun l => !(jsTrim l).data.isEmpty)).map
              (fun l => m.logSubscribers.map (fun s => (s.sid, l)))).flatten ∧
      (m.processLines L).2.2
          = ((L.filter (fun l => !(jsTrim l).data.isEmpty)).map
              (fun l => (m.logSubscribers.filter (fun s => s.throws l)).map
                (fun s => (s.sid, l)))).flatten ∧
      (m.processLines L).1.logSubscribers = m.logSubscribers ∧
      (m.processLines L).1.flutterProcess
          = (match m.flutterProcess with
             | none => none
             | some fp =>
               some (if (L.filter (fun l => !(jsTrim l).data.isEmpty)).any isReloadMarker
                     then { fp with status := FlutterStatus.hotReloading } else fp)) ∧
      (m.processLines L).1.pendingReloadTimers
          = m.pendingReloadTimers +
              (match m.flutterProcess with
               | none => 0
               | some _ =>
                 ((L.filter (fun l => !(jsTrim l).data.isEmpty)).filter
                   isReloadMarker).length) := by
  induction L with
  | nil =>
    intro m
    refine ⟨rfl, rfl, rfl, rfl, ?_, ?_⟩
    · cases hfp : m.flutterProcess with
      | none => exact hfp
      | some fp => exact hfp
    · cases hfp : m.flutterProcess with
      | none => rfl
      | some fp => rfl
  | cons l ls ih =>
    intro m
    by_cases hskip : ((jsTrim l).data.isEmpty) = true
    case pos =>
      have hfilter : (l :: ls).filter (fun x => !(jsTrim x).data.isEmpty)
          = ls.filter (fun x => !(jsTrim x).data.isEmpty) := by
        simp [List.filter_cons, hskip]
      have hstep : m.processLines (l :: ls)
          = ((m.processLines ls).1,
             [] ++ (m.processLines ls).2.1, [] ++ (m.processLines ls).2.2) := by
        show (((m.processLine l).1.processLines ls).1,
              (m.processLine l).2.1 ++ ((m.processLine l).1.processLines ls).2.1,
              (m.processLine l).2.2 ++ ((m.processLine l).1.processLines ls).2.2)
            = _
        rw [processLine_skip m l hskip]
      rw [hstep, hfilter]
      simpa using ih m
    case neg =>
      have hne : ((jsTrim l).data.isEmpty) = false := by
        simpa using hskip
      have hfilter : (l :: ls).filter (fun x => !(jsTrim x).data.isEmpty)
          = l :: ls.filter (fun x => !(jsTrim x).data.isEmpty) := by
        simp [List.filter_cons, hne]
      have hstep :
          m.processLines (l :: ls)
            = (((({ m with logBuffer := m.logBuffer.append l 0 }).detectStatusChanges
                  l).processLines ls).1,
               m.logSubscribers.map (fun s => (s.sid, l))
                 ++ ((({ m with logBuffer := m.logBuffer.append l 0 }).detectStatusChanges
                (l)).processLines ls).2.1,
               (m.logSubscribers.filter (fun s => s.throws l)).map (fun s => (s.sid, l))
                 ++ ((({ m with logBuffer := m.logBuffer.append l 0 }).detectStatusChanges
                (l)).processLines ls).2.2) := by
        show (((m.processLine l).1.processLines ls).1,
              (m.processLine l).2.1 ++ ((m.processLine l).1.processLines ls).2.1,
              (m.processLine l).2.2 ++ ((m.processLine l).1.processLines ls).2.2)
            = _
        rw [processLine_spec m l hne]
      rw [hstep, hfilter]
      have hbufProj : (({ m with logBuffer := m.logBuffer.append l 0 } : FPM)).logBuffer
          = m.logBuffer.append l 0 := rfl
      have hsubProj : (({ m with logBuffer := m.logBuffer.append l 0 } : FPM)).logSubscribers
          = m.logSubscribers := rfl
      have hfpProj : (({ m with logBuffer := m.logBuffer.append l 0 } : FPM)).flutterProcess
          = m.flutterProcess := rfl
      have htimProj :
          (({ m with logBuffer := m.logBuffer.append l 0 } : FPM)).pendingReloadTimers
          = m.pendingReloadTimers := rfl
      obtain ⟨d1, d2, d3, d4⟩ :=
        detect_fields ({ m with logBuffer := m.logBuffer.append l 0 }) l
      rw [hbufProj] at d1
      rw [hsubProj] at d2
      rw [hfpProj] at d3
      rw [htimProj, hfpProj] at d4
      obtain ⟨i1, i2, i3, i4, i5, i6⟩ :=
        ih (({ m with logBuffer := m.logBuffer.append l 0 }).detectStatusChanges l)
      refine ⟨?_, ?_, ?_, ?_, ?_, ?_⟩
      · rw [i1, d1, appendAll_cons]
      · rw [i2, d2, List.map_cons, List.flatten_cons]
      · rw [i3, d2, List.map_cons, List.flatten_cons]
      · rw [i4, d2]
      · rw [i5, d3]
        cases hfp : m.flutterProcess with
        | none => rfl
        | some fp =>
          by_cases hmk : isReloadMarker l
          case pos =>
            by_cases hany :
                (ls.filter (fun x => !(jsTrim x).data.isEmpty)).any isReloadMarker
            · simp [List.any_cons, hmk, hany]
            · simp [List.any_cons, hmk, hany]
          case neg =>
            by_cases hany :
                (ls.filter (fun x => !(jsTrim x).data.isEmpty)).any isReloadMarker
            · simp [List.any_cons, hmk, hany]
            · simp [List.any_cons, hmk, hany]
      · rw [i6, d4, d3]
        cases hfp : m.flutterProcess with
        | none => rfl
        | some fp =>
          by_cases hmk : isReloadMarker l
          case pos =>
            simp only [List.filter_cons, hmk, if_pos, List.length_cons]
            omega
          case neg =>
            have hmk' : isReloadMarker l = false := by simpa using hmk
            simp only [List.filter_cons, hmk', Bool.false_eq_true, if_false]
            omega

/-- C7 counterexample: the chunk `" \nok"` contains the complete
whitespace-only line `" "`, which the handler skips entirely — it is
neither appended to the log buffer nor delivered to the registered
subscriber — contradicting the claim that each line of the chunk is
appended and fanned out. -/
theorem c7_counterexample :
    jsSplitLines " \nok" = [" ", "ok"] ∧
    ((FPM.mk false none (LogBuffer.mkNew 10) [⟨0, fun _ => false⟩] 0).handleOutput
        " \nok").1.logBuffer.getTotalLines = 1 ∧
    ((FPM.mk false none (LogBuffer.mkNew 10) [⟨0, fun _ => false⟩] 0).handleOutput
        " \nok").2.1 = [(0, "ok")] :=
  ⟨rfl, rfl, rfl⟩

/-- C7 (amended): for every chunk, the handler processes once per
split-off line whose trimmed content is nonempty (whitespace-only lines
are skipped entirely): each such line is appended to the buffer in
order, then every currently registered subscriber is synchronously
invoked with it — deliveries and the buffer are given by expressions
independent of which subscribers throw, and a throwing subscriber is
merely logged — and then the line is inspected for reload markers,
driving the hot-reloading status and scheduling the delayed
transitions. -/
theorem c7_amended_line_fanout (m : FPM) (data : String) :
    (m.handleOutput data).1.logBuffer
        = m.logBuffer.appendAll
            ((jsSplitLines data).filter (fun l => !(jsTrim l).data.isEmpty)) ∧
    (m.handleOutput data).2.1
        = (((jsSplitLines data).filter (fun l => !(jsTrim l).data.isEmpty)).map
            (fun l => m.logSubscribers.map (fun s => (s.sid, l)))).flatten ∧
    (m.handleOutput data).2.2
        = (((jsSplitLines data).filter (fun l => !(jsTrim l).data.isEmpty)).map
            (fun l => (m.logSubscribers.filter (fun s => s.throws l)).map
              (fun s => (s.sid, l)))).flatten ∧
    (m.handleOutput data).1.logSubscribers = m.logSubscribers ∧
    (m.handleOutput data).1.flutterProcess
        = (match m.flutterProcess with
           | none => none
           | some fp =>
             some (if ((jsSplitLines data).filter
                     (fun l => !(jsTrim l).data.isEmpty)).any isReloadMarker
                   then { fp with status := FlutterStatus.hotReloading } else fp)) ∧
    (m.handleOutput data).1.pendingReloadTimers
        = m.pendingReloadTimers +
            (match m.flutterProcess with
             | none => 0
             | some _ =>
               (((jsSplitLines data).filter
                  (fun l => !(jsTrim l).data.isEmpty)).filter isReloadMarker).length) :=
  processLines_spec (jsSplitLines data) m
